import Mathlib

/-!
Verification development for the neighsnoopd topology cache and reply
correlator (src/cache.c and the main daemon file).

Modelling conventions:
* Machine integers are Nat values (ifindex, vlan id, network id); IPv6
  addresses are the 128-bit value as a Nat (byte 0 of s6_addr is the most
  significant byte); MAC addresses are the 48-bit value as a Nat.
* GHashTable instances become functions from the key type to Option values;
  g_hash_table_insert replaces an existing entry, g_hash_table_remove drops
  it.  GList values become Lean lists.
* struct link_network_cache and struct network_cache objects are shared
  through pointers in C (two lookup indices plus two intrusive lists point at
  one allocation).  The model gives them addresses in a heap that is never
  reclaimed (an allocator that never reuses memory): freeing an object only
  unlinks it from the owning table, and a later read through a stale pointer
  observes the residual values, which matches what the C program does in
  practice.  LinkNetwork records also carry a snapshot of the owning network
  id and network address, mirroring the pointer dereferences the C code
  performs; these fields are immutable in C after creation.
* clock_gettime results, bpf_map_update_elem results, rand() and the sysctl
  read are inputs of the environment, passed in as an Oracle value per event.
* created/updated/referenced timestamps and the reference_count and
  update_count fields are observability metadata; the model does not track
  them, but it does model how a failed clock acquisition changes the control
  flow and the returned values of each function.
* Allocation (g_new0) is modelled as always succeeding.
-/

namespace Nsd

/-- Pointwise update of a map modelled as a function into Option. -/
def fupd [DecidableEq α] (f : α → Option β) (k : α) (v : Option β) : α → Option β :=
  fun x => if x = k then v else f x

/-- Pointwise update of a Bool-valued membership map. -/
def bupd [DecidableEq α] (f : α → Bool) (k : α) (v : Bool) : α → Bool :=
  fun x => if x = k then v else f x

/-- Modify the value stored at a key, when present. -/
def amod [DecidableEq α] (f : α → Option β) (k : α) (g : β → β) : α → Option β :=
  fun x => if x = k then (f k).map g else f x

/-- AF_INET from the C headers. -/
def AF_INET : Nat := 2

/-- AF_INET6 from the C headers. -/
def AF_INET6 : Nat := 10

/-- NUD_REACHABLE from linux neighbour.h. -/
def NUD_REACHABLE : Nat := 2

/-- NUD_STALE from linux neighbour.h. -/
def NUD_STALE : Nat := 4

/-- Modelled from the spec: calculate_network_using_cidr is not under src/;
the spec says the canonical network address is computed by zeroing all bits
beyond prefixlen. -/
def maskCidr (ip : Nat) (plen : Nat) : Nat :=
  if 128 ≤ plen then ip else (ip >>> (128 - plen)) <<< (128 - plen)

/-- Modelled from the spec: IN6_IS_ADDR_LINKLOCAL, the fe80::/10 test
(top ten bits equal 1111111010). -/
def isLinkLocal (ip : Nat) : Bool := ip >>> 118 = 0x3FA

/-- Modelled from the spec: is_zero_mac is not under src/; a MAC is zero when
all six bytes are zero. -/
def is_zero_mac (mac : Nat) : Bool := mac = 0

/-- Key of db_fdb_cache: MAC, ifindex, VLAN id (struct fdb_cache_key). -/
structure FdbKey where
  mac : Nat
  ifindex : Nat
  vlanId : Nat
deriving DecidableEq, Repr

/-- Key of db_neigh_cache: ifindex and IP (struct neigh_cache_key). -/
structure NeighKey where
  ifindex : Nat
  ip : Nat
deriving DecidableEq, Repr

/-- struct link_cache. fdbList models the fdb_list GList (which the source
initialises but never appends to); networkList models network_list and holds
heap addresses of LinkNetwork records. -/
structure LinkRec where
  ifindex : Nat
  ifname : String
  kind : String
  slaveKind : String
  mac : Nat
  vlanId : Nat
  vlanProtocol : Nat
  hasVlan : Bool
  isMacvlan : Bool
  linkIfindex : Nat
  isSvi : Bool
  ignoreLink : Bool
  networkList : List Nat
  fdbList : List FdbKey
deriving DecidableEq, Repr

/-- struct network_cache. The id is the key under which the record is stored
(the C hash key points into the struct), so it is not repeated here. refcnt
is an Int so that decrements of residual records are represented exactly. -/
structure NetworkRec where
  network : Nat
  prefixlen : Nat
  truePrefixlen : Nat
  refcnt : Int
  links : List Nat
deriving DecidableEq, Repr

/-- struct link_network_cache. networkId and networkAddr snapshot the fields
the C code reads through the network pointer (immutable after creation). -/
structure LNRec where
  linkIfindex : Nat
  networkId : Nat
  networkAddr : Nat
  ip : Nat
deriving DecidableEq, Repr

/-- struct fdb_cache (link pointer modelled by the owning ifindex). -/
structure FdbRec where
  mac : Nat
  linkIfindex : Nat
  vlanId : Nat
deriving DecidableEq, Repr

/-- struct neigh_cache. timer is the currently referenced timer slot
(an id into the armed-timer set); lnId is sending_link_network. -/
structure NeighRec where
  ifindex : Nat
  mac : Nat
  ip : Nat
  nudState : Nat
  lnId : Nat
  timer : Option Nat
  nid : Nat
deriving DecidableEq, Repr

/-- struct netlink_link_cmd. -/
structure LinkCmd where
  ifindex : Nat
  ifname : String
  kind : String
  slaveKind : String
  mac : Nat
  vlanId : Nat
  vlanProtocol : Nat
  hasVlan : Bool
  isMacvlan : Bool
  linkIfindex : Nat
deriving DecidableEq, Repr

/-- struct netlink_addr_cmd: the interface address and the canonical network
address the netlink layer computed for it. -/
structure AddrCmd where
  ifindex : Nat
  ip : Nat
  network : Nat
  prefixlen : Nat
  truePrefixlen : Nat
deriving DecidableEq, Repr

/-- struct netlink_neigh_cmd (used for both neigh and fdb events). -/
structure NeighCmd where
  ifindex : Nat
  vlanId : Nat
  mac : Nat
  ip : Nat
  nudState : Nat
  isExternallyLearned : Bool
deriving DecidableEq, Repr

/-- struct neighbor_reply from the eBPF ring buffer. -/
structure Reply where
  inFamily : Nat
  vlanId : Nat
  networkId : Nat
  mac : Nat
  ip : Nat
deriving DecidableEq, Repr

/-- A netlink NEIGH_ADD request enqueued by netlink_send_neigh (modelled from
the spec: the netlink transport is out of scope; the spec says the correlator
enqueues NEIGH_ADD for (ifindex = link.ifindex, mac, ip)). -/
structure Enq where
  ifindex : Nat
  mac : Nat
  ip : Nat
deriving DecidableEq, Repr

/-- Environment results consumed while handling one event: clock_gettime
during lookups, clock_gettime during entity creation, the
bpf_map_update_elem result, the rand() draw and the base_reachable_time_ms
sysctl read (none when the read fails). -/
structure Oracle where
  clockLookup : Bool
  clockCreate : Bool
  bpfOk : Bool
  rand : Nat
  sysctl : Option Nat
deriving DecidableEq, Repr

/-- Configuration and readiness flags of the global env singleton. -/
structure Env where
  ifidxMon : Nat
  onlyIpv4 : Bool
  onlyIpv6 : Bool
  disableIpv6llFilter : Bool
  hasLinks : Bool
  hasNetworks : Bool
  hasFdb : Bool
  denyFilter : String → Bool

/-- The whole cache: the four owning tables, the three lookup indices, the
two never-reclaimed heaps, the eBPF target_networks map and the allocation
counters (the static id counters of cache.c and the model allocators). -/
structure CacheState where
  dbLink : Nat → Option LinkRec
  dbNetworkLive : Nat → Bool
  networkHeap : Nat → Option NetworkRec
  dbFdb : FdbKey → Option FdbRec
  dbNeigh : NeighKey → Option NeighRec
  lookupAddr : Nat → Option Nat
  lookupVlanNetworkid : Nat × Nat → Option Nat
  lookupAddrIfindex : Nat × Nat → Option Nat
  lnHeap : Nat → Option LNRec
  bpfMap : Nat × Nat → Option Nat
  armed : Nat → Bool
  nextLnId : Nat
  nextNetworkId : Nat
  nextNeighId : Nat
  nextTimerId : Nat

/-- The empty cache right after setup_cache: the static network id counter
starts at 1 and the static neigh id counter starts at 1. -/
def initState : CacheState where
  dbLink := fun _ => none
  dbNetworkLive := fun _ => false
  networkHeap := fun _ => none
  dbFdb := fun _ => none
  dbNeigh := fun _ => none
  lookupAddr := fun _ => none
  lookupVlanNetworkid := fun _ => none
  lookupAddrIfindex := fun _ => none
  lnHeap := fun _ => none
  bpfMap := fun _ => none
  armed := fun _ => false
  nextLnId := 0
  nextNetworkId := 1
  nextNeighId := 1
  nextTimerId := 0

/-- cache_add_link (cache.c 119-155): allocate, copy the command fields
(link_ifindex is not copied; g_new0 leaves it 0), read the clock and insert
into db_link_cache.  When clock_gettime fails the entry is freed before the
insert (the C function then returns the freed pointer, which the caller
treats as success and writes through without any table effect; the Bool
records whether the insert happened). -/
def cache_add_link (o : Oracle) (cmd : LinkCmd) (s : CacheState) :
    CacheState × Bool :=
  if o.clockCreate then
    ({ s with dbLink := fupd s.dbLink cmd.ifindex (some
        { ifindex := cmd.ifindex, ifname := cmd.ifname, kind := cmd.kind,
          slaveKind := cmd.slaveKind, mac := cmd.mac, vlanId := cmd.vlanId,
          vlanProtocol := cmd.vlanProtocol, hasVlan := cmd.hasVlan,
          isMacvlan := cmd.isMacvlan, linkIfindex := 0, isSvi := false,
          ignoreLink := false, networkList := [], fdbList := [] }) }, true)
  else (s, false)

/-- cache_update_link (cache.c 157-233): sync every command field into the
cached record; is_svi, ignore_link and the two intrusive lists are not
touched. -/
def cache_update_link (cmd : LinkCmd) (l : LinkRec) : LinkRec :=
  { l with linkIfindex := cmd.linkIfindex, ifname := cmd.ifname,
           mac := cmd.mac, kind := cmd.kind, slaveKind := cmd.slaveKind,
           vlanProtocol := cmd.vlanProtocol, vlanId := cmd.vlanId,
           hasVlan := cmd.hasVlan, isMacvlan := cmd.isMacvlan }

/-- cache_get_link (cache.c 319-337): the only lookup that turns a clock
failure into a miss (cache = NULL before returning). -/
def cache_get_link (s : CacheState) (clockOk : Bool) (ifindex : Nat) :
    Option LinkRec :=
  match s.dbLink ifindex with
  | none => none
  | some l => if clockOk then some l else none

/-- cache_add_link_network (cache.c 235-275): allocate the two lookup keys,
insert into both lookup indices (replacing on key collision), append to
network->links with refcnt++, and append to link->network_list.  The VLAN id
of the vlan/networkid key is read through the link pointer, modelled by the
table entry of the ifindex the LinkNetwork records. -/
def cache_add_link_network (s : CacheState) (ln : LNRec) : CacheState :=
  let lnId := s.nextLnId
  let vlanId := ((s.dbLink ln.linkIfindex).map fun l => l.vlanId).getD 0
  { s with
    lnHeap := fupd s.lnHeap lnId (some ln),
    nextLnId := lnId + 1,
    lookupVlanNetworkid :=
      fupd s.lookupVlanNetworkid (ln.networkId, vlanId) (some lnId),
    lookupAddrIfindex :=
      fupd s.lookupAddrIfindex (ln.networkAddr, ln.linkIfindex) (some lnId),
    networkHeap := amod s.networkHeap ln.networkId
      (fun nw => { nw with links := nw.links ++ [lnId],
                           refcnt := nw.refcnt + 1 }),
    dbLink := amod s.dbLink ln.linkIfindex
      (fun l => { l with networkList := l.networkList ++ [lnId] }) }

/-- cache_del_link_network (cache.c 277-317): remove both lookup-index keys,
remove the entry from network->links (by pointer identity) and decrement
refcnt.  The removal from link->network_list compares the list elements
(link_network pointers) against the network pointer, so it never matches and
network_list keeps the entry; the record itself is freed, which the
never-reclaimed heap keeps as residual memory. -/
def cache_del_link_network (s : CacheState) (lnId : Nat) : CacheState :=
  match s.lnHeap lnId with
  | none => s
  | some ln =>
    let vlanId := ((s.dbLink ln.linkIfindex).map fun l => l.vlanId).getD 0
    { s with
      lookupVlanNetworkid :=
        fupd s.lookupVlanNetworkid (ln.networkId, vlanId) none,
      lookupAddrIfindex :=
        fupd s.lookupAddrIfindex (ln.networkAddr, ln.linkIfindex) none,
      networkHeap := amod s.networkHeap ln.networkId
        (fun nw => { nw with links := nw.links.erase lnId,
                             refcnt := nw.refcnt - 1 }) }

/-- One turn of the fdb_list loop of cache_del_link (cache.c 353-360): the
removal key is zero-initialised and its mac member is never filled in (the
designated initialiser zeroes it), so only a zero-MAC fdb entry could ever
match. -/
def del_fdb_zero_key (st : CacheState) (k : FdbKey) : CacheState :=
  let key : FdbKey := { mac := 0, ifindex := k.ifindex, vlanId := k.vlanId }
  { st with dbFdb := fupd st.dbFdb key none }

/-- cache_del_link (cache.c 339-367): delete every LinkNetwork on the
network_list, then walk fdb_list removing the zero-MAC keys, then drop the
link from db_link_cache.  The network_list traversal is snapshot semantics;
since cache_del_link_network never manages to remove anything from
network_list this coincides with the live list. -/
def cache_del_link (cmd : LinkCmd) (s : CacheState) : CacheState :=
  match s.dbLink cmd.ifindex with
  | none => s
  | some link =>
    let s1 := link.networkList.foldl cache_del_link_network s
    let s2 := link.fdbList.foldl del_fdb_zero_key s1
    { s2 with dbLink := fupd s2.dbLink cmd.ifindex none }

/-- cache_get_link_network_by_reply (cache.c 374-386): plain lookup on the
(network_id, vlan_id) index; no clock involved. -/
def cache_get_link_network_by_reply (s : CacheState) (reply : Reply) :
    Option Nat :=
  s.lookupVlanNetworkid (reply.networkId, reply.vlanId)

/-- cache_get_link_network_by_addr (cache.c 388-407): walk the network_list
of the link and return the first binding whose network CIDR contains the
address. -/
def cache_get_link_network_by_addr (s : CacheState) (link : LinkRec)
    (ip : Nat) : Option Nat :=
  link.networkList.findSome? fun lnId =>
    match s.lnHeap lnId with
    | none => none
    | some ln =>
      match s.networkHeap ln.networkId with
      | none => none
      | some nw =>
        if maskCidr ip nw.prefixlen = nw.network then some lnId else none

/-- cache_get_link_network (cache.c 409-418): lookup on the
(network address, ifindex) index. -/
def cache_get_link_network (s : CacheState) (ifindex : Nat)
    (networkIp : Nat) : Option Nat :=
  s.lookupAddrIfindex (networkIp, ifindex)

/-- cache_add_network (cache.c 420-503): resolve the link, assign the next
id (the static counter increments at assignment), insert into
db_network_cache and db_lookup_addr, create the LinkNetwork carrying the raw
command ip and register it through cache_add_link_network, then update the
eBPF target_networks map and read the clock.  When the map update or the
clock fails, only db_lookup_addr and db_network_cache are rolled back: the
LinkNetwork stays in both lookup indices and on the link network_list, and a
map entry installed before a clock failure stays in the map. -/
def cache_add_network (o : Oracle) (cmd : AddrCmd) (s : CacheState) :
    CacheState × Option Nat :=
  match cache_get_link s o.clockLookup cmd.ifindex with
  | none => (s, none)
  | some link =>
    let id := s.nextNetworkId
    let nw : NetworkRec :=
      { network := cmd.network, prefixlen := cmd.prefixlen,
        truePrefixlen := cmd.truePrefixlen, refcnt := 0, links := [] }
    let s1 := { s with
      nextNetworkId := id + 1,
      dbNetworkLive := bupd s.dbNetworkLive id true,
      networkHeap := fupd s.networkHeap id (some nw),
      lookupAddr := fupd s.lookupAddr cmd.network (some id) }
    let ln : LNRec :=
      { linkIfindex := link.ifindex, networkId := id,
        networkAddr := cmd.network, ip := cmd.ip }
    let s2 := cache_add_link_network s1 ln
    if o.bpfOk then
      let s3 := { s2 with bpfMap := fupd s2.bpfMap (cmd.prefixlen, cmd.network) (some id) }
      if o.clockCreate then (s3, some id)
      else
        ({ s3 with
           lookupAddr := fupd s3.lookupAddr cmd.network none,
           dbNetworkLive := bupd s3.dbNetworkLive id false }, none)
    else
      ({ s2 with
         lookupAddr := fupd s2.lookupAddr cmd.network none,
         dbNetworkLive := bupd s2.dbNetworkLive id false }, none)

/-- cache_get_network_by_id (cache.c 505-521): on clock failure the found
entry is still returned (only the reference bump is skipped). -/
def cache_get_network_by_id (s : CacheState) (clockOk : Bool) (id : Nat) :
    Option NetworkRec :=
  match (if s.dbNetworkLive id then s.networkHeap id else none) with
  | none => none
  | some nw => if clockOk then some nw else some nw

/-- cache_get_network (cache.c 523-526): plain lookup of the network by its
canonical address; no clock involved. -/
def cache_get_network (s : CacheState) (cmd : AddrCmd) : Option Nat :=
  s.lookupAddr cmd.network

/-- cache_del_network (cache.c 528-579): resolve the link, walk its
network_list for a network whose address equals the command ip (sic: the
event address field, not the network field) with matching prefixlen, then
remove the network from db_network_cache and db_lookup_addr, delete all of
its LinkNetworks (snapshot traversal of network->links: the source iterates
the list it is mutating; the spec directs a mutation-safe traversal with the
same intended semantics) and delete the eBPF map entry keyed by the command
ip. -/
def cache_del_network (o : Oracle) (cmd : AddrCmd) (s : CacheState) :
    CacheState :=
  match cache_get_link s o.clockLookup cmd.ifindex with
  | none => s
  | some link =>
    let found := link.networkList.findSome? fun lnId =>
      match s.lnHeap lnId with
      | none => none
      | some ln =>
        match s.networkHeap ln.networkId with
        | none => none
        | some nw =>
          if nw.network = cmd.ip ∧ nw.prefixlen = cmd.prefixlen then
            some (ln.networkId, nw)
          else none
    match found with
    | none => s
    | some (nid, nw) =>
      let s1 := { s with
        dbNetworkLive := bupd s.dbNetworkLive nid false,
        lookupAddr := fupd s.lookupAddr nw.network none }
      let s2 := nw.links.foldl cache_del_link_network s1
      { s2 with bpfMap := fupd s2.bpfMap (cmd.prefixlen, cmd.ip) none }

/-- cache_get_fdb (cache.c 619-640): on clock failure the found entry is
still returned (only the reference bump is skipped). -/
def cache_get_fdb (s : CacheState) (clockOk : Bool) (cmd : NeighCmd) :
    Option FdbRec :=
  match s.dbFdb { mac := cmd.mac, ifindex := cmd.ifindex, vlanId := cmd.vlanId } with
  | none => none
  | some f => if clockOk then some f else some f

/-- cache_get_fdb_by_reply (cache.c 642-653): repackage the reply fields and
defer to cache_get_fdb. -/
def cache_get_fdb_by_reply (s : CacheState) (clockOk : Bool) (reply : Reply)
    (ifindex : Nat) : Option FdbRec :=
  cache_get_fdb s clockOk
    { ifindex := ifindex, vlanId := reply.vlanId, mac := reply.mac,
      ip := 0, nudState := 0, isExternallyLearned := false }

/-- cache_add_fdb (cache.c 655-704): build the key, resolve the link, read
the clock and insert.  The new entry is never appended to the link fdb_list.
Returns the state and whether the insert happened. -/
def cache_add_fdb (o : Oracle) (cmd : NeighCmd) (s : CacheState) :
    CacheState × Bool :=
  match cache_get_link s o.clockLookup cmd.ifindex with
  | none => (s, false)
  | some _ =>
    if o.clockCreate then
      let key : FdbKey := { mac := cmd.mac, ifindex := cmd.ifindex, vlanId := cmd.vlanId }
      let rec1 : FdbRec := { mac := cmd.mac, linkIfindex := cmd.ifindex, vlanId := cmd.vlanId }
      ({ s with dbFdb := fupd s.dbFdb key (some rec1) }, true)
    else (s, false)

/-- cache_del_fdb (cache.c 706-724): remove the key when present. -/
def cache_del_fdb (cmd : NeighCmd) (s : CacheState) : CacheState :=
  let key : FdbKey := { mac := cmd.mac, ifindex := cmd.ifindex, vlanId := cmd.vlanId }
  match s.dbFdb key with
  | none => s
  | some _ => { s with dbFdb := fupd s.dbFdb key none }

/-- cache_add_neigh (cache.c 762-810): build the (ifindex, ip) key, copy the
command fields, read the clock, insert and assign the next monotonic id.
On clock failure nothing is inserted and the id counter is not bumped. -/
def cache_add_neigh (o : Oracle) (lnId : Nat) (cmd : NeighCmd)
    (s : CacheState) : CacheState × Bool :=
  if o.clockCreate then
    let key : NeighKey := { ifindex := cmd.ifindex, ip := cmd.ip }
    let rec1 : NeighRec :=
      { ifindex := cmd.ifindex, mac := cmd.mac, ip := cmd.ip,
        nudState := cmd.nudState, lnId := lnId, timer := none,
        nid := s.nextNeighId }
    ({ s with dbNeigh := fupd s.dbNeigh key (some rec1),
              nextNeighId := s.nextNeighId + 1 }, true)
  else (s, false)

/-- cache_get_neigh (cache.c 812-832): on clock failure the found entry is
still returned (only the reference bump is skipped). -/
def cache_get_neigh (s : CacheState) (clockOk : Bool) (cmd : NeighCmd) :
    Option NeighRec :=
  match s.dbNeigh { ifindex := cmd.ifindex, ip := cmd.ip } with
  | none => none
  | some n => if clockOk then some n else some n

/-- cache_get_neigh_by_reply (cache.c 834-844): copy the reply mac and ip
into a command and defer to cache_get_neigh, whose key uses only the ifindex
and the ip. -/
def cache_get_neigh_by_reply (s : CacheState) (clockOk : Bool)
    (reply : Reply) (ifindex : Nat) : Option NeighRec :=
  cache_get_neigh s clockOk
    { ifindex := ifindex, vlanId := 0, mac := reply.mac, ip := reply.ip,
      nudState := 0, isExternallyLearned := false }

/-- cache_neigh_update (cache.c 846-878): sync the MAC unconditionally and
the NUD state when it changed. -/
def cache_neigh_update (cmd : NeighCmd) (s : CacheState) : CacheState :=
  let key : NeighKey := { ifindex := cmd.ifindex, ip := cmd.ip }
  let m := amod s.dbNeigh key (fun n => { n with mac := cmd.mac, nudState := cmd.nudState })
  { s with dbNeigh := m }

/-- cache_del_neigh (cache.c 880-889): remove the (ifindex, ip) key. -/
def cache_del_neigh (key : NeighKey) (s : CacheState) : CacheState :=
  { s with dbNeigh := fupd s.dbNeigh key none }

/-- The jitter summand of get_next_gratuitous_time: (rand() % 2000) / 1000.0
as an exact rational. -/
def gratuitous_jitter (r : Nat) : ℚ := ((r % 2000 : Nat) : ℚ) / 1000

/-- get_next_gratuitous_time (main file 356-398), the arithmetic on a
successful sysctl read: base_reachable_time / 4.0 / 1000.0 plus the jitter.
The double arithmetic of the source is modelled as exact rationals; the
sysctl value is the integer milliseconds the kernel exposes. -/
def gratuitous_seconds (base : Nat) (r : Nat) : ℚ :=
  (base : ℚ) / 4 / 1000 + gratuitous_jitter r

/-- timer_add_neigh as used by new_neigh_timer: arm a fresh timer slot and
store the reference in the neigh entry (modelled from the spec: the timer
plumbing is outside src/; each Neighbor holds at most one timer entry and
arming creates a fresh one). -/
def armNeighTimer (key : NeighKey) (s : CacheState) : CacheState :=
  let t := s.nextTimerId
  { s with dbNeigh := amod s.dbNeigh key (fun n => { n with timer := some t }),
           armed := bupd s.armed t true,
           nextTimerId := t + 1 }

/-- new_neigh_timer (main file 400-419): read the sysctl; on failure arm
nothing and report the error, else arm a fresh timer for the computed
interval. -/
def new_neigh_timer (o : Oracle) (key : NeighKey) (s : CacheState) :
    CacheState × Bool :=
  match o.sysctl with
  | none => (s, false)
  | some _ => (armNeighTimer key s, true)

/-- timer_remove_event as used on a neigh timer: cancel the armed slot; the
neigh timer field is left to the caller (modelled from the spec state
machine: ARMED to CANCELLED clears the armed entry). -/
def timer_remove_event (t : Nat) (s : CacheState) : CacheState :=
  { s with armed := bupd s.armed t false }

/-- handle_neighbor_reply (main file 103-162): family filters, resolve the
LinkNetwork by (network_id, vlan_id), suppress on an fdb hit, reset the
timer of an already-cached neighbor (aborting before the netlink enqueue
when re-arming fails), then enqueue the NEIGH_ADD.  Returns the state, the
netlink enqueues and the C return value. -/
def handle_neighbor_reply (env : Env) (o : Oracle) (reply : Reply)
    (s : CacheState) : CacheState × List Enq × Nat :=
  if env.onlyIpv6 ∧ reply.inFamily ≠ AF_INET6 then (s, [], 1)
  else if env.onlyIpv4 ∧ reply.inFamily ≠ AF_INET then (s, [], 1)
  else
    match cache_get_link_network_by_reply s reply with
    | none => (s, [], 1)
    | some lnId =>
      match s.lnHeap lnId with
      | none => (s, [], 1)
      | some ln =>
        match s.dbLink ln.linkIfindex with
        | none => (s, [], 1)
        | some link =>
          match cache_get_fdb_by_reply s o.clockLookup reply link.ifindex with
          | some _ => (s, [], 0)
          | none =>
            let key : NeighKey := { ifindex := link.ifindex, ip := reply.ip }
            let enq : Enq := { ifindex := link.ifindex, mac := reply.mac, ip := reply.ip }
            match cache_get_neigh_by_reply s o.clockLookup reply link.ifindex with
            | some n =>
              let s1 := match n.timer with
                        | some t => timer_remove_event t s
                        | none => s
              match new_neigh_timer o key s1 with
              | (s2, false) => (s2, [], 1)
              | (s2, true) => (s2, [enq], 0)
            | none => (s, [enq], 0)

/-- handle_neigh_add (main file 421-499): readiness gating, skip entries
with no interface, a zero MAC or the externally-learned flag, resolve the
link and the containing network, upsert the neighbor, then arm a timer for
a REACHABLE neighbor without one (STALE neighbors get an immediate probe,
which touches no cache state). -/
def handle_neigh_add (env : Env) (o : Oracle) (cmd : NeighCmd)
    (s : CacheState) : CacheState :=
  if ¬(env.hasLinks ∧ env.hasNetworks ∧ env.hasFdb) then s
  else if cmd.ifindex = 0 then s
  else if is_zero_mac cmd.mac then s
  else if cmd.isExternallyLearned then s
  else
    match cache_get_link s o.clockLookup cmd.ifindex with
    | none => s
    | some link =>
      match cache_get_link_network_by_addr s link cmd.ip with
      | none => s
      | some lnId =>
        let key : NeighKey := { ifindex := cmd.ifindex, ip := cmd.ip }
        let s1 :=
          match cache_get_neigh s o.clockLookup cmd with
          | some _ => cache_neigh_update cmd s
          | none => (cache_add_neigh o lnId cmd s).1
        match s1.dbNeigh key with
        | none => s1
        | some n =>
          if n.nudState = NUD_REACHABLE ∧ n.timer = none then
            (new_neigh_timer o key s1).1
          else s1

/-- handle_neigh_del (main file 501-517): cancel the timer and remove the
neighbor. -/
def handle_neigh_del (o : Oracle) (cmd : NeighCmd) (s : CacheState) :
    CacheState :=
  match cache_get_neigh s o.clockLookup cmd with
  | none => s
  | some n =>
    let key : NeighKey := { ifindex := cmd.ifindex, ip := cmd.ip }
    let s1 := match n.timer with
              | some t => timer_remove_event t s
              | none => s
    cache_del_neigh key s1

/-- handle_fdb_add (main file 519-560): readiness gating, skip entries with
no interface, resolve the link, skip externally-learned entries (caching
only the rest), then insert unless already cached.  The entry is never
attached to the link fdb_list.  Returns the state and the C return value. -/
def handle_fdb_add (env : Env) (o : Oracle) (cmd : NeighCmd)
    (s : CacheState) : CacheState × Int :=
  if ¬(env.hasLinks ∧ env.hasNetworks) then (s, 0)
  else if cmd.ifindex = 0 then (s, 0)
  else
    match cache_get_link s o.clockLookup cmd.ifindex with
    | none => (s, 0)
    | some _ =>
      if cmd.isExternallyLearned then (s, 0)
      else
        match cache_get_fdb s o.clockLookup cmd with
        | some _ => (s, 0)
        | none =>
          let r := cache_add_fdb o cmd s
          if r.2 then (r.1, 0) else (r.1, -1)

/-- handle_fdb_del (main file 562-573): remove when cached. -/
def handle_fdb_del (o : Oracle) (cmd : NeighCmd) (s : CacheState) :
    CacheState :=
  match cache_get_fdb s o.clockLookup cmd with
  | none => s
  | some _ => cache_del_fdb cmd s

/-- Tail of handle_addr_add (main file 617-638): once the Network is known,
look for an existing LinkNetwork on the (network address, ifindex) index and
otherwise create one whose ip is the network address masked to the command
prefixlen. -/
def addr_add_bind (cmd : AddrCmd) (nid : Nat) (nwNetwork : Nat)
    (s : CacheState) : CacheState :=
  match cache_get_link_network s cmd.ifindex nwNetwork with
  | some _ => s
  | none =>
    let ln : LNRec :=
      { linkIfindex := cmd.ifindex, networkId := nid,
        networkAddr := nwNetwork, ip := maskCidr nwNetwork cmd.prefixlen }
    cache_add_link_network s ln

/-- handle_addr_add (main file 575-642): readiness gating, IPv6 link-local
filter, SVI check, then get-or-create the Network and bind the link to it. -/
def handle_addr_add (env : Env) (o : Oracle) (cmd : AddrCmd)
    (s : CacheState) : CacheState :=
  if ¬env.hasLinks then s
  else if ¬env.disableIpv6llFilter ∧ isLinkLocal cmd.ip then s
  else
    match cache_get_link s o.clockLookup cmd.ifindex with
    | none => s
    | some link =>
      if ¬link.isSvi then s
      else
        match cache_get_network s cmd with
        | some nid =>
          match s.networkHeap nid with
          | none => s
          | some nw => addr_add_bind cmd nid nw.network s
        | none =>
          let r := cache_add_network o cmd s
          match r.2 with
          | none => r.1
          | some nid =>
            match r.1.networkHeap nid with
            | none => r.1
            | some nw => addr_add_bind cmd nid nw.network r.1

/-- handle_addr_del (main file 644-664): drop when the network is not
cached, else run the cascade of cache_del_network. -/
def handle_addr_del (o : Oracle) (cmd : AddrCmd) (s : CacheState) :
    CacheState :=
  match cache_get_network s cmd with
  | none => s
  | some _ => cache_del_network o cmd s

/-- handle_link_add (main file 666-704): update when cached, else insert
and then compute is_svi from the monitored bridge ifindex and apply the deny
filter to the interface name. -/
def handle_link_add (env : Env) (o : Oracle) (cmd : LinkCmd)
    (s : CacheState) : CacheState :=
  match cache_get_link s o.clockLookup cmd.ifindex with
  | some _ => { s with dbLink := amod s.dbLink cmd.ifindex (cache_update_link cmd) }
  | none =>
    let r := cache_add_link o cmd s
    if r.2 then
      let m := amod r.1.dbLink cmd.ifindex (fun l =>
        { l with isSvi := cmd.linkIfindex = env.ifidxMon,
                 ignoreLink := env.denyFilter cmd.ifname })
      { r.1 with dbLink := m }
    else r.1

/-- handle_link_del (main file 706-721): drop when not cached, else run the
cascade of cache_del_link. -/
def handle_link_del (o : Oracle) (cmd : LinkCmd) (s : CacheState) :
    CacheState :=
  match cache_get_link s o.clockLookup cmd.ifindex with
  | none => s
  | some _ => cache_del_link cmd s

/-- The eight netlink event kinds of handle_netlink_cmd, each carrying the
environment results consumed while handling it. -/
inductive Event
  | linkAdd (o : Oracle) (cmd : LinkCmd)
  | linkDel (o : Oracle) (cmd : LinkCmd)
  | addrAdd (o : Oracle) (cmd : AddrCmd)
  | addrDel (o : Oracle) (cmd : AddrCmd)
  | fdbAdd (o : Oracle) (cmd : NeighCmd)
  | fdbDel (o : Oracle) (cmd : NeighCmd)
  | neighAdd (o : Oracle) (cmd : NeighCmd)
  | neighDel (o : Oracle) (cmd : NeighCmd)

/-- Dispatch of handle_netlink_cmd (main file 723-759). -/
def applyEvent (env : Env) (s : CacheState) : Event → CacheState
  | Event.linkAdd o cmd => handle_link_add env o cmd s
  | Event.linkDel o cmd => handle_link_del o cmd s
  | Event.addrAdd o cmd => handle_addr_add env o cmd s
  | Event.addrDel o cmd => handle_addr_del o cmd s
  | Event.fdbAdd o cmd => (handle_fdb_add env o cmd s).1
  | Event.fdbDel o cmd => handle_fdb_del o cmd s
  | Event.neighAdd o cmd => handle_neigh_add env o cmd s
  | Event.neighDel o cmd => handle_neigh_del o cmd s

/-- Apply a whole stream of topology events to the cache. -/
def applyEvents (env : Env) (evs : List Event) (s : CacheState) : CacheState :=
  evs.foldl (applyEvent env) s

/-! Invariants of the topology cache, used for the refcnt law.  They only
mention the link table, the network liveness flags, the two heaps, the
address index and the two allocation counters; the fdb/neigh tables, the
timers and the remaining indices never influence them. -/

/-- Heap addresses at or above the allocator counter are unallocated. -/
def LnFresh (s : CacheState) : Prop :=
  ∀ k, s.nextLnId ≤ k → s.lnHeap k = none

/-- Every allocated LinkNetwork references an already-assigned network id. -/
def LnNwBound (s : CacheState) : Prop :=
  ∀ k ln, s.lnHeap k = some ln → ln.networkId < s.nextNetworkId

/-- The network-by-address index maps only to already-assigned ids. -/
def AddrIdxBound (s : CacheState) : Prop :=
  ∀ a id, s.lookupAddr a = some id → id < s.nextNetworkId

/-- Every member of a network links list is an allocated LinkNetwork that
points back at that network. -/
def NetLinksOk (s : CacheState) : Prop :=
  ∀ id nw, s.networkHeap id = some nw →
    ∀ lnId ∈ nw.links, ∃ ln, s.lnHeap lnId = some ln ∧ ln.networkId = id

/-- network_list entries are distinct and below the allocator counter. -/
def LinkListOk (s : CacheState) : Prop :=
  ∀ ifx l, s.dbLink ifx = some l →
    l.networkList.Nodup ∧ ∀ lnId ∈ l.networkList, lnId < s.nextLnId

/-- Every network_list entry of a cached link other than ifx0 whose network
is live is registered in that network links list. -/
def BackRefExcept (s : CacheState) (ifx0 : Nat) : Prop :=
  ∀ ifx l, s.dbLink ifx = some l → ifx ≠ ifx0 → ∀ lnId ∈ l.networkList,
    ∀ ln, s.lnHeap lnId = some ln → s.dbNetworkLive ln.networkId = true →
      ∃ nw, s.networkHeap ln.networkId = some nw ∧ lnId ∈ nw.links

/-- Every network_list entry of a cached link whose network is live is
registered in that network links list. -/
def BackRef (s : CacheState) : Prop :=
  ∀ ifx l, s.dbLink ifx = some l → ∀ lnId ∈ l.networkList,
    ∀ ln, s.lnHeap lnId = some ln → s.dbNetworkLive ln.networkId = true →
      ∃ nw, s.networkHeap ln.networkId = some nw ∧ lnId ∈ nw.links

/-- No two cached links share a network_list entry. -/
def CrossDisj (s : CacheState) : Prop :=
  ∀ ifx1 l1 ifx2 l2, s.dbLink ifx1 = some l1 → s.dbLink ifx2 = some l2 →
    ifx1 ≠ ifx2 → ∀ lnId, lnId ∈ l1.networkList → lnId ∉ l2.networkList

/-- The refcnt law of the spec: every live Network has refcnt equal to the
length of its links list. -/
def RefcntLaw (s : CacheState) : Prop :=
  ∀ id, s.dbNetworkLive id = true →
    ∃ nw, s.networkHeap id = some nw ∧ nw.refcnt = (nw.links.length : Int)

/-- The conjunction of all cache invariants needed to carry the refcnt law
through every event handler. -/
def GInv (s : CacheState) : Prop :=
  LnFresh s ∧ LnNwBound s ∧ AddrIdxBound s ∧ NetLinksOk s ∧ LinkListOk s ∧
  BackRef s ∧ CrossDisj s ∧ RefcntLaw s

/-! Concrete fixtures used by the claim theorems: a fully initialised
environment monitoring bridge ifindex 100, an all-good oracle, one SVI link
with ifindex 7 and VLAN 10, and the network ::ffff:10.0.0.0/120 gained
through address ::ffff:10.0.0.1. -/

/-- Environment with all three readiness flags set, no family filters and no
deny filter. -/
def envReady : Env :=
  { ifidxMon := 100, onlyIpv4 := false, onlyIpv6 := false,
    disableIpv6llFilter := false, hasLinks := true, hasNetworks := true,
    hasFdb := true, denyFilter := fun _ => false }

/-- Oracle on which every environment interaction succeeds. -/
def oracleOk : Oracle :=
  { clockLookup := true, clockCreate := true, bpfOk := true, rand := 0,
    sysctl := some 30000 }

/-- LINK ADD command for the SVI: ifindex 7, VLAN 10, parent the monitored
bridge. -/
def linkCmdA : LinkCmd :=
  { ifindex := 7, ifname := "vlan10", kind := "vlan", slaveKind := "",
    mac := 0xAA, vlanId := 10, vlanProtocol := 0x8100, hasVlan := true,
    isMacvlan := false, linkIfindex := 100 }

/-- ADDR ADD command: address ::ffff:10.0.0.1 with the canonical network
address ::ffff:10.0.0.0, prefixlen 120. -/
def addrCmdA : AddrCmd :=
  { ifindex := 7, ip := 0xFFFF0A000001, network := 0xFFFF0A000000,
    prefixlen := 120, truePrefixlen := 120 }

/-- FDB ADD command marked externally learned, MAC 02:00:00:00:00:05. -/
def fdbCmdExt : NeighCmd :=
  { ifindex := 7, vlanId := 10, mac := 0x020000000005, ip := 0, nudState := 0,
    isExternallyLearned := true }

/-- The same FDB ADD command without the externally-learned flag. -/
def fdbCmdLocal : NeighCmd :=
  { ifindex := 7, vlanId := 10, mac := 0x020000000005, ip := 0, nudState := 0,
    isExternallyLearned := false }

/-- Cache holding only the SVI link 7. -/
def sLink : CacheState := applyEvents envReady [Event.linkAdd oracleOk linkCmdA] initState

/-- Cache holding the link and the network, bound by LinkNetwork 0. -/
def sLinkNet : CacheState :=
  applyEvents envReady [Event.linkAdd oracleOk linkCmdA, Event.addrAdd oracleOk addrCmdA] initState

/-- FDB ADD command, not externally learned, MAC 77, used to load the fdb
table for the suppression claims. -/
def fdbCmd77 : NeighCmd := { fdbCmdLocal with mac := 77 }

/-- Cache with the link, the network and a cached fdb entry for MAC 77. -/
def sFdb77 : CacheState := applyEvents envReady [Event.fdbAdd oracleOk fdbCmd77] sLinkNet

/-- Ring-buffer reply for MAC 77 on network 1, VLAN 10. -/
def replyMac77 : Reply :=
  { inFamily := 2, vlanId := 10, networkId := 1, mac := 77, ip := 0xFFFF0A000005 }

/-- The same reply carrying MAC 99 instead. -/
def replyMac99 : Reply := { replyMac77 with mac := 99 }

/-- The link record stored for ifindex 7 in sLinkNet (cache_add_link leaves
link_ifindex zero; handle_link_add computed is_svi true). -/
def linkRecA : LinkRec :=
  { ifindex := 7, ifname := "vlan10", kind := "vlan", slaveKind := "",
    mac := 0xAA, vlanId := 10, vlanProtocol := 0x8100, hasVlan := true,
    isMacvlan := false, linkIfindex := 0, isSvi := true, ignoreLink := false,
    networkList := [0], fdbList := [] }

/-- The LinkNetwork record stored at heap address 0 in sLinkNet. -/
def lnRecA : LNRec :=
  { linkIfindex := 7, networkId := 1, networkAddr := 0xFFFF0A000000,
    ip := 0xFFFF0A000001 }

/-- The fdb record stored for MAC 77 in sFdb77. -/
def fdbRec77 : FdbRec := { mac := 77, linkIfindex := 7, vlanId := 10 }

/-- The network record stored at heap address 1 in sLinkNet. -/
def nwRecA : NetworkRec :=
  { network := 0xFFFF0A000000, prefixlen := 120, truePrefixlen := 120,
    refcnt := 1, links := [0] }

/-- NEIGH ADD command for 10.0.0.5 on the SVI, REACHABLE, not externally
learned. -/
def neighCmdA : NeighCmd :=
  { ifindex := 7, vlanId := 0, mac := 77, ip := 0xFFFF0A000005,
    nudState := 2, isExternallyLearned := false }

/-- Cache with the link, the network and the cached neighbor (whose timer
slot 0 is armed). -/
def sNeigh : CacheState := applyEvents envReady [Event.neighAdd oracleOk neighCmdA] sLinkNet

/-- The neighbor record cached in sNeigh. -/
def neighRecA : NeighRec :=
  { ifindex := 7, mac := 77, ip := 0xFFFF0A000005, nudState := 2, lnId := 0,
    timer := some 0, nid := 1 }

/-- A second SVI link, ifindex 8 with VLAN 20. -/
def linkCmdB : LinkCmd :=
  { linkCmdA with ifindex := 8, ifname := "vlan20", vlanId := 20 }

/-- Cache with both links and the network bound only to link 7. -/
def sTwoLinks : CacheState :=
  applyEvents envReady [Event.linkAdd oracleOk linkCmdB] sLinkNet

/-- The link record stored for ifindex 8 in sTwoLinks. -/
def linkRecB : LinkRec :=
  { linkRecA with ifindex := 8, ifname := "vlan20", vlanId := 20, networkList := [] }

/-- ADDR ADD command binding link 8 to the already-cached network through
address ::ffff:10.0.0.2/120. -/
def addrCmdB : AddrCmd :=
  { ifindex := 8, ip := 0xFFFF0A000002, network := 0xFFFF0A000000,
    prefixlen := 120, truePrefixlen := 120 }

theorem fupd_same [DecidableEq α] (f : α → Option β) (k : α) (v : Option β) :
    fupd f k v k = v := by simp [fupd]

theorem fupd_other [DecidableEq α] (f : α → Option β) (k x : α) (v : Option β)
    (h : x ≠ k) : fupd f k v x = f x := by simp [fupd, h]

theorem amod_same [DecidableEq α] (f : α → Option β) (k : α) (g : β → β) :
    amod f k g k = (f k).map g := by simp [amod]

theorem amod_other [DecidableEq α] (f : α → Option β) (k x : α) (g : β → β)
    (h : x ≠ k) : amod f k g x = f x := by simp [amod, h]

/-- C1.  The claim says an FDB ADD is cached if and only if the kernel marks
it externally learned, the cached entry being inserted into the fdb table
and attached to the fdb_list of the owning Link.  The code does the
opposite of its own correlator debug message (which reports an fdb-table hit
as externally learned): handle_fdb_add drops entries whose
is_externally_learned flag is set and caches exactly the unflagged ones, and
cache_add_fdb never attaches the new entry to the fdb_list of the Link.
This theorem evaluates both polarities on a cache holding link 7: the
externally-learned command leaves the fdb table empty, while the unflagged
command inserts the entry and still leaves fdb_list empty. -/
theorem C1_fdb_add_inverted :
    (handle_fdb_add envReady oracleOk fdbCmdExt sLink).1.dbFdb
        { mac := 0x020000000005, ifindex := 7, vlanId := 10 } = none
    ∧ (handle_fdb_add envReady oracleOk fdbCmdLocal sLink).1.dbFdb
        { mac := 0x020000000005, ifindex := 7, vlanId := 10 } =
        some { mac := 0x020000000005, linkIfindex := 7, vlanId := 10 }
    ∧ (((handle_fdb_add envReady oracleOk fdbCmdLocal sLink).1.dbLink 7).map
        fun l => l.fdbList) = some [] := by
  refine ⟨by decide, by decide, by decide⟩

/-- C3.  The claim says that after LINK DEL for interface i no entity
referencing i remains in any index, in particular that every FDB entry of
the link is removed from the fdb table.  In the code the fdb entries are
never attached to fdb_list, and the removal loop of cache_del_link builds
its key with the mac member left zero, so a cached FDB entry with a non-zero
MAC survives the cascade: after adding link 7, caching an FDB entry for it
and deleting the link, the link table no longer knows ifindex 7 but the fdb
table still holds the entry whose link reference is ifindex 7. -/
theorem C3_link_del_cascade_leaves_fdb :
    (applyEvents envReady
        [Event.linkAdd oracleOk linkCmdA, Event.fdbAdd oracleOk fdbCmdLocal,
         Event.linkDel oracleOk linkCmdA] initState).dbLink 7 = none
    ∧ (applyEvents envReady
        [Event.linkAdd oracleOk linkCmdA, Event.fdbAdd oracleOk fdbCmdLocal,
         Event.linkDel oracleOk linkCmdA] initState).dbFdb
        { mac := 0x020000000005, ifindex := 7, vlanId := 10 } =
        some { mac := 0x020000000005, linkIfindex := 7, vlanId := 10 } := by
  refine ⟨by decide, by decide⟩

/-- C4.  The claim says a failed eBPF target-networks update during ADDR ADD
makes cache_add_network fail and roll back every insert, leaving both
LinkNetwork indices and the intrusive lists untouched.  The code does return
failure and rolls back db_network_cache and db_lookup_addr, but it never
undoes cache_add_link_network: the LinkNetwork stays in the vlan/networkid
index, in the address/ifindex index and on the network_list of link 7,
pointing at the freed network.  This theorem evaluates the failing call on a
cache holding only link 7. -/
theorem C4_add_network_rollback_residue :
    (cache_add_network { oracleOk with bpfOk := false } addrCmdA sLink).2 = none
    ∧ (cache_add_network { oracleOk with bpfOk := false } addrCmdA sLink).1.dbNetworkLive 1 = false
    ∧ (cache_add_network { oracleOk with bpfOk := false } addrCmdA sLink).1.lookupAddr 0xFFFF0A000000 = none
    ∧ (cache_add_network { oracleOk with bpfOk := false } addrCmdA sLink).1.lookupVlanNetworkid (1, 10) = some 0
    ∧ (cache_add_network { oracleOk with bpfOk := false } addrCmdA sLink).1.lookupAddrIfindex (0xFFFF0A000000, 7) = some 0
    ∧ ((((cache_add_network { oracleOk with bpfOk := false } addrCmdA sLink).1.dbLink 7).map
        fun l => l.networkList) = some [0]) := by
  refine ⟨by decide, by decide, by decide, by decide, by decide, by decide⟩

/-- C2.  Reply suppression: whenever the (mac, link.ifindex, vlan_id) key of
a ring-buffer reply that resolves a LinkNetwork is present in the fdb table,
handle_neighbor_reply returns without enqueueing any netlink NEIGH_ADD and
with the cache exactly as it was.  This holds for every environment and
every oracle: cache_get_fdb returns the cached entry whether or not its
clock read succeeds, and the family filters can only drop the reply
earlier. -/
theorem C2_reply_suppression (env : Env) (o : Oracle) (reply : Reply)
    (s : CacheState) (lnId : Nat) (ln : LNRec) (link : LinkRec) (f : FdbRec)
    (h1 : cache_get_link_network_by_reply s reply = some lnId)
    (h2 : s.lnHeap lnId = some ln)
    (h3 : s.dbLink ln.linkIfindex = some link)
    (h4 : s.dbFdb { mac := reply.mac, ifindex := link.ifindex, vlanId := reply.vlanId } = some f) :
    (handle_neighbor_reply env o reply s).1 = s
    ∧ (handle_neighbor_reply env o reply s).2.1 = [] := by
  unfold handle_neighbor_reply
  by_cases hf6 : env.onlyIpv6 ∧ reply.inFamily ≠ AF_INET6
  · simp [hf6]
  · by_cases hf4 : env.onlyIpv4 ∧ reply.inFamily ≠ AF_INET
    · simp [hf6, hf4]
    · simp [hf6, hf4, h1, h2, h3, cache_get_fdb_by_reply, cache_get_fdb, h4]

/-- C2 witness: the suppression theorem applied to the concrete cache
sFdb77 and the reply for MAC 77. -/
theorem C2_reply_suppression_witness :
    (handle_neighbor_reply envReady oracleOk replyMac77 sFdb77).1 = sFdb77
    ∧ (handle_neighbor_reply envReady oracleOk replyMac77 sFdb77).2.1 = [] :=
  C2_reply_suppression envReady oracleOk replyMac77 sFdb77 0 lnRecA linkRecA
    fdbRec77 (by decide) (by decide) (by decide) (by decide)

/-- C9 counterexample.  The claim says every owning-index lookup returns
not-found when the wall-clock read fails.  Only cache_get_link does; on the
concrete caches below, cache_get_network_by_id, cache_get_fdb and
cache_get_neigh all return the cached entity with the clock failing even
though the claim requires NULL. -/
theorem C9_clock_failure_counterexample :
    cache_get_link sLinkNet false 7 = none
    ∧ (sLinkNet.dbLink 7).isSome
    ∧ cache_get_network_by_id sLinkNet false 1 = some nwRecA
    ∧ cache_get_fdb sFdb77 false fdbCmd77 = some fdbRec77
    ∧ cache_get_neigh sNeigh false neighCmdA = some neighRecA := by
  refine ⟨by decide, by decide, by decide, by decide, by decide⟩

/-- C9 amended.  Of the four owning-index lookups only the link lookup
treats a clock failure as not-found; the network-by-id, fdb and neigh
lookups return exactly what they return with a healthy clock (the code only
skips the reference bump). -/
theorem C9_clock_failure_lookup :
    (∀ (s : CacheState) (x : Nat), cache_get_link s false x = none)
    ∧ (∀ (s : CacheState) (id : Nat),
        cache_get_network_by_id s false id = cache_get_network_by_id s true id)
    ∧ (∀ (s : CacheState) (c : NeighCmd),
        cache_get_fdb s false c = cache_get_fdb s true c)
    ∧ (∀ (s : CacheState) (c : NeighCmd),
        cache_get_neigh s false c = cache_get_neigh s true c) := by
  refine ⟨?_, ?_, ?_, ?_⟩
  · intro s x
    unfold cache_get_link
    cases s.dbLink x <;> simp
  · intro s id
    unfold cache_get_network_by_id
    cases (if s.dbNetworkLive id then s.networkHeap id else none) <;> simp
  · intro s c
    unfold cache_get_fdb
    cases s.dbFdb { mac := c.mac, ifindex := c.ifindex, vlanId := c.vlanId } <;> simp
  · intro s c
    unfold cache_get_neigh
    cases s.dbNeigh { ifindex := c.ifindex, ip := c.ip } <;> simp

/-- C8.  Timer bound: for any sysctl reading B (integer milliseconds) and
any rand() draw, the interval computed by get_next_gratuitous_time lies in
the closed range from B/4000 to B/4000 + 2 seconds (the double arithmetic
of the source is modelled as exact rational arithmetic). -/
theorem C8_timer_bound (B r : Nat) :
    (B : ℚ) / 4000 ≤ gratuitous_seconds B r
    ∧ gratuitous_seconds B r ≤ (B : ℚ) / 4000 + 2 := by
  have hbase : (B : ℚ) / 4 / 1000 = (B : ℚ) / 4000 := by
    rw [div_div]
    norm_num
  have hj0 : 0 ≤ gratuitous_jitter r := by
    unfold gratuitous_jitter
    positivity
  have hj2 : gratuitous_jitter r ≤ 2 := by
    unfold gratuitous_jitter
    rw [div_le_iff₀ (by norm_num : (0:ℚ) < 1000)]
    have hlt : ((r % 2000 : Nat) : ℚ) ≤ 2000 := by
      exact_mod_cast Nat.le_of_lt (Nat.mod_lt r (by norm_num))
    linarith
  constructor
  · unfold gratuitous_seconds
    rw [hbase]
    linarith
  · unfold gratuitous_seconds
    rw [hbase]
    linarith

/-- The cache invariants only read the link table, the heaps, the address
index, the liveness flags and the two allocation counters, so states that
agree there satisfy the same invariants. -/
theorem ginv_congr (s s' : CacheState)
    (h1 : s'.dbLink = s.dbLink) (h2 : s'.networkHeap = s.networkHeap)
    (h3 : s'.lnHeap = s.lnHeap) (h4 : s'.lookupAddr = s.lookupAddr)
    (h5 : s'.dbNetworkLive = s.dbNetworkLive)
    (h6 : s'.nextLnId = s.nextLnId) (h7 : s'.nextNetworkId = s.nextNetworkId)
    (h : GInv s) : GInv s' := by
  unfold GInv LnFresh LnNwBound AddrIdxBound NetLinksOk LinkListOk BackRef
    CrossDisj RefcntLaw at h ⊢
  rw [h1, h2, h3, h4, h5, h6, h7]
  exact h

/-- The empty cache satisfies the invariants. -/
theorem ginv_init : GInv initState := by
  refine ⟨?_, ?_, ?_, ?_, ?_, ?_, ?_, ?_⟩
  · intro k _
    rfl
  · intro k ln h
    cases h
  · intro a id h
    cases h
  · intro id nw h
    cases h
  · intro ifx l h
    cases h
  · intro ifx l h
    cases h
  · intro ifx1 l1 ifx2 l2 h
    cases h
  · intro id h
    cases h

/-- cache_add_fdb only touches the fdb table. -/
theorem ginv_cache_add_fdb (o : Oracle) (cmd : NeighCmd) (s : CacheState)
    (h : GInv s) : GInv (cache_add_fdb o cmd s).1 := by
  unfold cache_add_fdb
  repeat' split
  all_goals first
    | exact h
    | exact ginv_congr s _ rfl rfl rfl rfl rfl rfl rfl h

/-- handle_fdb_add only touches the fdb table. -/
theorem ginv_fdb_add (env : Env) (o : Oracle) (cmd : NeighCmd)
    (s : CacheState) (h : GInv s) : GInv (handle_fdb_add env o cmd s).1 := by
  unfold handle_fdb_add
  dsimp only
  repeat' split
  all_goals first
    | exact h
    | exact ginv_cache_add_fdb o cmd s h

/-- handle_fdb_del only touches the fdb table. -/
theorem ginv_fdb_del (o : Oracle) (cmd : NeighCmd) (s : CacheState)
    (h : GInv s) : GInv (handle_fdb_del o cmd s) := by
  unfold handle_fdb_del cache_del_fdb
  dsimp only
  repeat' split
  all_goals first
    | exact h
    | exact ginv_congr s _ rfl rfl rfl rfl rfl rfl rfl h

/-- handle_neigh_add only touches the neigh table and the timers. -/
theorem ginv_neigh_add (env : Env) (o : Oracle) (cmd : NeighCmd)
    (s : CacheState) (h : GInv s) : GInv (handle_neigh_add env o cmd s) := by
  unfold handle_neigh_add cache_neigh_update cache_add_neigh new_neigh_timer
    armNeighTimer
  dsimp only
  repeat' split
  all_goals first
    | exact h
    | exact ginv_congr s _ rfl rfl rfl rfl rfl rfl rfl h

/-- handle_neigh_del only touches the neigh table and the timers. -/
theorem ginv_neigh_del (o : Oracle) (cmd : NeighCmd) (s : CacheState)
    (h : GInv s) : GInv (handle_neigh_del o cmd s) := by
  unfold handle_neigh_del cache_del_neigh timer_remove_event
  dsimp only
  repeat' split
  all_goals first
    | exact h
    | exact ginv_congr s _ rfl rfl rfl rfl rfl rfl rfl h

/-- Deleting a LinkNetwork never touches the link table. -/
theorem del_ln_dbLink (s : CacheState) (lnId : Nat) :
    (cache_del_link_network s lnId).dbLink = s.dbLink := by
  unfold cache_del_link_network
  split <;> rfl

/-- Deleting a LinkNetwork never touches the LinkNetwork heap (the record is
freed but the allocator never reuses memory). -/
theorem del_ln_lnHeap (s : CacheState) (lnId : Nat) :
    (cache_del_link_network s lnId).lnHeap = s.lnHeap := by
  unfold cache_del_link_network
  split <;> rfl

/-- Deleting a LinkNetwork never touches the network liveness flags. -/
theorem del_ln_live (s : CacheState) (lnId : Nat) :
    (cache_del_link_network s lnId).dbNetworkLive = s.dbNetworkLive := by
  unfold cache_del_link_network
  split <;> rfl

/-- Deleting a LinkNetwork never touches the address index. -/
theorem del_ln_lookupAddr (s : CacheState) (lnId : Nat) :
    (cache_del_link_network s lnId).lookupAddr = s.lookupAddr := by
  unfold cache_del_link_network
  split <;> rfl

/-- Deleting a LinkNetwork never touches the allocation counters. -/
theorem del_ln_nextLn (s : CacheState) (lnId : Nat) :
    (cache_del_link_network s lnId).nextLnId = s.nextLnId := by
  unfold cache_del_link_network
  split <;> rfl

/-- Deleting a LinkNetwork never touches the network id counter. -/
theorem del_ln_nextNw (s : CacheState) (lnId : Nat) :
    (cache_del_link_network s lnId).nextNetworkId = s.nextNetworkId := by
  unfold cache_del_link_network
  split <;> rfl

/-- The network-heap effect of deleting an allocated LinkNetwork: its
network record loses the address from links and one refcnt. -/
theorem del_ln_networkHeap (s : CacheState) (lnId : Nat) (ln : LNRec)
    (h : s.lnHeap lnId = some ln) :
    (cache_del_link_network s lnId).networkHeap =
      amod s.networkHeap ln.networkId
        (fun nw => { nw with links := nw.links.erase lnId,
                             refcnt := nw.refcnt - 1 }) := by
  unfold cache_del_link_network
  rw [h]

/-- Inversion of a lookup in a pointwise-modified map. -/
theorem amod_eq_some [DecidableEq α] {f : α → Option β} {k x : α}
    {g : β → β} {v : β} (h : amod f k g x = some v) :
    (x = k ∧ ∃ w, f k = some w ∧ v = g w) ∨ (x ≠ k ∧ f x = some v) := by
  by_cases hx : x = k
  · subst hx
    rw [amod_same] at h
    cases hf : f x with
    | none =>
      rw [hf] at h
      cases h
    | some w =>
      rw [hf] at h
      injection h with he
      exact Or.inl ⟨rfl, w, rfl, he.symm⟩
  · rw [amod_other _ _ _ _ hx] at h
    exact Or.inr ⟨hx, h⟩

/-- Inversion of a lookup in a pointwise-updated map. -/
theorem fupd_eq_some [DecidableEq α] {f : α → Option β} {k x : α}
    {v0 : Option β} {v : β} (h : fupd f k v0 x = some v) :
    (x = k ∧ v0 = some v) ∨ (x ≠ k ∧ f x = some v) := by
  by_cases hx : x = k
  · subst hx
    rw [fupd_same] at h
    exact Or.inl ⟨rfl, h⟩
  · rw [fupd_other _ _ _ _ hx] at h
    exact Or.inr ⟨hx, h⟩

/-- Registering a LinkNetwork preserves the cache invariants, provided its
network id has already been assigned. -/
theorem ginv_add_link_network (s : CacheState) (ln : LNRec)
    (hb : ln.networkId < s.nextNetworkId) (h : GInv s) :
    GInv (cache_add_link_network s ln) := by
  obtain ⟨hF, hBnd, hA, hN, hL, hR, hC, hRef⟩ := h
  unfold cache_add_link_network GInv LnFresh LnNwBound AddrIdxBound
    NetLinksOk LinkListOk BackRef CrossDisj RefcntLaw
  dsimp only
  have hFresh0 : s.lnHeap s.nextLnId = none := hF s.nextLnId (Nat.le_refl _)
  have hneOf : ∀ lnId0 ln0, s.lnHeap lnId0 = some ln0 → lnId0 ≠ s.nextLnId := by
    intro lnId0 ln0 h0 he
    rw [he, hFresh0] at h0
    cases h0
  refine ⟨?_, ?_, ?_, ?_, ?_, ?_, ?_, ?_⟩
  · -- LnFresh
    intro k hk
    rw [fupd_other _ _ _ _ (by omega : k ≠ s.nextLnId)]
    exact hF k (by omega)
  · -- LnNwBound
    intro k ln2 h2
    rcases fupd_eq_some h2 with ⟨hk, hv⟩ | ⟨hk, hv⟩
    · injection hv with hve
      subst hve
      exact hb
    · exact hBnd k ln2 hv
  · -- AddrIdxBound
    exact hA
  · -- NetLinksOk
    intro id nw2 h2 lnId2 hmem2
    rcases amod_eq_some h2 with ⟨hid, nw, hnw, hv⟩ | ⟨hid, h2⟩
    · subst hid
      subst hv
      dsimp only at hmem2
      rcases List.mem_append.mp hmem2 with hm | hm
      · obtain ⟨ln2, hln2, hid2⟩ := hN _ _ hnw lnId2 hm
        exact ⟨ln2, by rw [fupd_other _ _ _ _ (hneOf _ _ hln2)]; exact hln2, hid2⟩
      · have he : lnId2 = s.nextLnId := by simpa using hm
        subst he
        exact ⟨ln, by rw [fupd_same], rfl⟩
    · obtain ⟨ln2, hln2, hid2⟩ := hN _ _ h2 lnId2 hmem2
      exact ⟨ln2, by rw [fupd_other _ _ _ _ (hneOf _ _ hln2)]; exact hln2, hid2⟩
  · -- LinkListOk
    intro ifx l2 h2
    rcases amod_eq_some h2 with ⟨hix, l, hl, hv⟩ | ⟨hix, h2⟩
    · subst hv
      obtain ⟨hnd, hbd⟩ := hL _ _ hl
      dsimp only
      constructor
      · refine hnd.append (List.nodup_singleton _) ?_
        intro x hx hxs
        have hxe : x = s.nextLnId := by simpa using hxs
        have := hbd x hx
        omega
      · intro lnId2 hmem2
        rcases List.mem_append.mp hmem2 with hm | hm
        · have := hbd lnId2 hm
          omega
        · have he : lnId2 = s.nextLnId := by simpa using hm
          omega
    · obtain ⟨hnd, hbd⟩ := hL _ _ h2
      refine ⟨hnd, ?_⟩
      intro lnId2 hmem2
      have := hbd lnId2 hmem2
      omega
  · -- BackRef
    intro ifx l2 h2 lnId2 hmem2 ln2 hln2 hlive2
    have hgoal : ∀ nw0, s.networkHeap ln2.networkId = some nw0 →
        lnId2 ∈ nw0.links →
        ∃ nw1, amod s.networkHeap ln.networkId
            (fun nw => { nw with refcnt := nw.refcnt + 1,
                                 links := nw.links ++ [s.nextLnId] }) ln2.networkId = some nw1
          ∧ lnId2 ∈ nw1.links := by
      intro nw0 hnw0 hm0
      by_cases hid : ln2.networkId = ln.networkId
      · rw [hid, amod_same]
        rw [hid] at hnw0
        rw [hnw0]
        refine ⟨_, rfl, ?_⟩
        dsimp only
        exact List.mem_append.mpr (Or.inl hm0)
      · rw [amod_other _ _ _ _ hid]
        exact ⟨nw0, hnw0, hm0⟩
    rcases fupd_eq_some hln2 with ⟨hk, hv⟩ | ⟨hk, hln2⟩
    · -- the freshly inserted LinkNetwork
      subst hk
      injection hv with hve
      subst hve
      obtain ⟨nw, hnw, _⟩ := hRef _ hlive2
      have hmap : amod s.networkHeap ln.networkId
          (fun nw => { nw with refcnt := nw.refcnt + 1,
                               links := nw.links ++ [s.nextLnId] }) ln.networkId
          = some { nw with refcnt := nw.refcnt + 1,
                           links := nw.links ++ [s.nextLnId] } := by
        rw [amod_same, hnw]
        rfl
      refine ⟨_, hmap, ?_⟩
      dsimp only
      exact List.mem_append.mpr (Or.inr (by simp))
    · -- a previously registered LinkNetwork
      rcases amod_eq_some h2 with ⟨hix, l, hl, hv⟩ | ⟨hix, h2⟩
      · subst hv
        dsimp only at hmem2
        rcases List.mem_append.mp hmem2 with hm | hm
        · obtain ⟨nw0, hnw0, hm0⟩ := hR _ _ hl lnId2 hm ln2 hln2 hlive2
          exact hgoal nw0 hnw0 hm0
        · have he : lnId2 = s.nextLnId := by simpa using hm
          exact absurd he hk
      · obtain ⟨nw0, hnw0, hm0⟩ := hR _ _ h2 lnId2 hmem2 ln2 hln2 hlive2
        exact hgoal nw0 hnw0 hm0
  · -- CrossDisj
    intro ifx1 l1 ifx2 l2 h1 h2 hne lnId2 hm1
    rcases amod_eq_some h1 with ⟨hix1, w1, hw1, hv1⟩ | ⟨hix1, h1⟩
    · subst hv1
      have hix2 : ifx2 ≠ ln.linkIfindex := by
        rw [hix1] at hne
        exact fun he => hne he.symm
      rw [amod_other _ _ _ _ hix2] at h2
      dsimp only at hm1
      rcases List.mem_append.mp hm1 with hm | hm
      · exact hC _ _ _ _ (hix1 ▸ hw1) h2 hne lnId2 hm
      · have he : lnId2 = s.nextLnId := by simpa using hm
        subst he
        intro hmem2
        have := (hL _ _ h2).2 _ hmem2
        omega
    · rcases amod_eq_some h2 with ⟨hix2, w2, hw2, hv2⟩ | ⟨hix2, h2⟩
      · subst hv2
        dsimp only
        intro hmem2
        rcases List.mem_append.mp hmem2 with hm | hm
        · exact hC _ _ _ _ h1 (hix2 ▸ hw2) hne lnId2 hm1 hm
        · have he : lnId2 = s.nextLnId := by simpa using hm
          have := (hL _ _ h1).2 _ hm1
          omega
      · exact hC _ _ _ _ h1 h2 hne lnId2 hm1
  · -- RefcntLaw
    intro id hlive
    by_cases hid : id = ln.networkId
    · subst hid
      obtain ⟨nw, hnw, heq⟩ := hRef _ hlive
      rw [amod_same, hnw]
      refine ⟨_, rfl, ?_⟩
      dsimp only
      rw [List.length_append, heq]
      push_cast [List.length_singleton]
      ring
    · rw [amod_other _ _ _ _ hid]
      exact hRef _ hlive

theorem bupd_same [DecidableEq α] (f : α → Bool) (k : α) (v : Bool) :
    bupd f k v k = v := by simp [bupd]

theorem bupd_other [DecidableEq α] (f : α → Bool) (k x : α) (v : Bool)
    (h : x ≠ k) : bupd f k v x = f x := by simp [bupd, h]

/-- Deleting a LinkNetwork whose network is no longer live preserves the
cache invariants: the residual decrement only touches a dead heap record. -/
theorem ginv_del_ln_dead (s : CacheState) (lnId : Nat)
    (hdead : ∀ ln, s.lnHeap lnId = some ln → s.dbNetworkLive ln.networkId = false)
    (h : GInv s) : GInv (cache_del_link_network s lnId) := by
  obtain ⟨hF, hBnd, hA, hN, hL, hR, hC, hRef⟩ := h
  cases hln : s.lnHeap lnId with
  | none =>
    unfold cache_del_link_network
    rw [hln]
    exact ⟨hF, hBnd, hA, hN, hL, hR, hC, hRef⟩
  | some ln =>
    have hld : s.dbNetworkLive ln.networkId = false := hdead ln hln
    unfold cache_del_link_network GInv LnFresh LnNwBound AddrIdxBound
      NetLinksOk LinkListOk BackRef CrossDisj RefcntLaw
    rw [hln]
    dsimp only
    refine ⟨hF, hBnd, hA, ?_, hL, ?_, hC, ?_⟩
    · intro id nw2 h2 lnId2 hmem2
      rcases amod_eq_some h2 with ⟨hid, nw, hnw, hv⟩ | ⟨hid, h2⟩
      · subst hid
        subst hv
        dsimp only at hmem2
        exact hN _ _ hnw lnId2 (List.mem_of_mem_erase hmem2)
      · exact hN _ _ h2 lnId2 hmem2
    · intro ifx l2 h2 lnId2 hmem2 ln2 hln2 hlive2
      have hne : ln2.networkId ≠ ln.networkId := by
        intro he
        rw [he, hld] at hlive2
        cases hlive2
      obtain ⟨nw0, hnw0, hm0⟩ := hR ifx l2 h2 lnId2 hmem2 ln2 hln2 hlive2
      exact ⟨nw0, by rw [amod_other _ _ _ _ hne]; exact hnw0, hm0⟩
    · intro id hlive
      have hne : id ≠ ln.networkId := by
        intro he
        rw [he, hld] at hlive
        cases hlive
      rw [amod_other _ _ _ _ hne]
      exact hRef id hlive

/-- Cascading over LinkNetworks of dead networks preserves the cache
invariants. -/
theorem ginv_foldl_del_dead (L : List Nat) (s : CacheState)
    (hdead : ∀ lnId ∈ L, ∀ ln, s.lnHeap lnId = some ln →
        s.dbNetworkLive ln.networkId = false)
    (h : GInv s) : GInv (L.foldl cache_del_link_network s) := by
  induction L generalizing s with
  | nil => exact h
  | cons a t ih =>
    rw [List.foldl_cons]
    apply ih
    · intro lnId hm ln hln
      rw [del_ln_lnHeap] at hln
      rw [del_ln_live]
      exact hdead lnId (List.mem_cons_of_mem a hm) ln hln
    · exact ginv_del_ln_dead s a (hdead a (List.mem_cons_self a t)) h

/-- Flipping a network liveness flag off and dropping an address-index entry
preserves the cache invariants. -/
theorem ginv_live_off (s : CacheState) (nid : Nat) (addr : Nat) (h : GInv s) :
    GInv { s with dbNetworkLive := bupd s.dbNetworkLive nid false,
                  lookupAddr := fupd s.lookupAddr addr none } := by
  obtain ⟨hF, hBnd, hA, hN, hL, hR, hC, hRef⟩ := h
  have hlive_of : ∀ id, bupd s.dbNetworkLive nid false id = true →
      s.dbNetworkLive id = true := by
    intro id h2
    by_cases he : id = nid
    · rw [he, bupd_same] at h2
      cases h2
    · rw [bupd_other _ _ _ _ he] at h2
      exact h2
  refine ⟨hF, hBnd, ?_, hN, hL, ?_, hC, ?_⟩
  · intro a id h2
    rcases fupd_eq_some h2 with ⟨hk, hv⟩ | ⟨hk, hv⟩
    · cases hv
    · exact hA a id hv
  · intro ifx l2 h2 lnId2 hmem2 ln2 hln2 hlive2
    exact hR ifx l2 h2 lnId2 hmem2 ln2 hln2 (hlive_of _ hlive2)
  · intro id hlive
    exact hRef id (hlive_of _ hlive)

/-- cache_del_network preserves the cache invariants: the network goes dead
before its LinkNetworks are cascaded. -/
theorem ginv_del_network (o : Oracle) (cmd : AddrCmd) (s : CacheState)
    (h : GInv s) : GInv (cache_del_network o cmd s) := by
  obtain ⟨hF, hBnd, hA, hN, hL, hR, hC, hRef⟩ := h
  unfold cache_del_network
  split
  · exact ⟨hF, hBnd, hA, hN, hL, hR, hC, hRef⟩
  · dsimp only
    split
    · exact ⟨hF, hBnd, hA, hN, hL, hR, hC, hRef⟩
    · rename_i link hl nid nw hfind
      obtain ⟨lnId0, hmem0, hf0⟩ := List.exists_of_findSome?_eq_some hfind
      have hheap : s.networkHeap nid = some nw := by
        cases hh1 : s.lnHeap lnId0 with
        | none =>
          rw [hh1] at hf0
          cases hf0
        | some ln0 =>
          rw [hh1] at hf0
          dsimp only at hf0
          cases hh2 : s.networkHeap ln0.networkId with
          | none =>
            rw [hh2] at hf0
            cases hf0
          | some nw0 =>
            rw [hh2] at hf0
            dsimp only at hf0
            by_cases hcond : nw0.network = cmd.ip ∧ nw0.prefixlen = cmd.prefixlen
            · rw [if_pos hcond] at hf0
              injection hf0 with hp
              cases hp
              exact hh2
            · rw [if_neg hcond] at hf0
              cases hf0
      have h1 : GInv { s with
          dbNetworkLive := bupd s.dbNetworkLive nid false,
          lookupAddr := fupd s.lookupAddr nw.network none } :=
        ginv_live_off s nid nw.network ⟨hF, hBnd, hA, hN, hL, hR, hC, hRef⟩
      have h2 : GInv (nw.links.foldl cache_del_link_network { s with
          dbNetworkLive := bupd s.dbNetworkLive nid false,
          lookupAddr := fupd s.lookupAddr nw.network none }) := by
        apply ginv_foldl_del_dead _ _ _ h1
        intro lnId hm ln hln
        dsimp only at hln ⊢
        obtain ⟨ln2, hln2, hid2⟩ := hN _ _ hheap lnId hm
        have : ln2 = ln := by
          rw [hln2] at hln
          injection hln
        subst this
        rw [hid2, bupd_same]
      exact h2

/-- A LinkNetwork cascade never touches the link table. -/
theorem foldl_del_dbLink (L : List Nat) (s : CacheState) :
    (L.foldl cache_del_link_network s).dbLink = s.dbLink := by
  induction L generalizing s with
  | nil => rfl
  | cons a t ih => rw [List.foldl_cons, ih, del_ln_dbLink]

/-- A LinkNetwork cascade never touches the LinkNetwork heap. -/
theorem foldl_del_lnHeap (L : List Nat) (s : CacheState) :
    (L.foldl cache_del_link_network s).lnHeap = s.lnHeap := by
  induction L generalizing s with
  | nil => rfl
  | cons a t ih => rw [List.foldl_cons, ih, del_ln_lnHeap]

/-- A LinkNetwork cascade never touches the liveness flags. -/
theorem foldl_del_live (L : List Nat) (s : CacheState) :
    (L.foldl cache_del_link_network s).dbNetworkLive = s.dbNetworkLive := by
  induction L generalizing s with
  | nil => rfl
  | cons a t ih => rw [List.foldl_cons, ih, del_ln_live]

/-- A LinkNetwork cascade never touches the address index. -/
theorem foldl_del_lookupAddr (L : List Nat) (s : CacheState) :
    (L.foldl cache_del_link_network s).lookupAddr = s.lookupAddr := by
  induction L generalizing s with
  | nil => rfl
  | cons a t ih => rw [List.foldl_cons, ih, del_ln_lookupAddr]

/-- A LinkNetwork cascade never touches the LinkNetwork allocator. -/
theorem foldl_del_nextLn (L : List Nat) (s : CacheState) :
    (L.foldl cache_del_link_network s).nextLnId = s.nextLnId := by
  induction L generalizing s with
  | nil => rfl
  | cons a t ih => rw [List.foldl_cons, ih, del_ln_nextLn]

/-- A LinkNetwork cascade never touches the network id counter. -/
theorem foldl_del_nextNw (L : List Nat) (s : CacheState) :
    (L.foldl cache_del_link_network s).nextNetworkId = s.nextNetworkId := by
  induction L generalizing s with
  | nil => rfl
  | cons a t ih => rw [List.foldl_cons, ih, del_ln_nextNw]

/-- The fdb_list loop of cache_del_link only touches the fdb table. -/
theorem foldl_fdb_only (K : List FdbKey) (s : CacheState) :
    (K.foldl del_fdb_zero_key s).dbLink = s.dbLink
    ∧ (K.foldl del_fdb_zero_key s).networkHeap = s.networkHeap
    ∧ (K.foldl del_fdb_zero_key s).lnHeap = s.lnHeap
    ∧ (K.foldl del_fdb_zero_key s).lookupAddr = s.lookupAddr
    ∧ (K.foldl del_fdb_zero_key s).dbNetworkLive = s.dbNetworkLive
    ∧ (K.foldl del_fdb_zero_key s).nextLnId = s.nextLnId
    ∧ (K.foldl del_fdb_zero_key s).nextNetworkId = s.nextNetworkId := by
  induction K generalizing s with
  | nil => exact ⟨rfl, rfl, rfl, rfl, rfl, rfl, rfl⟩
  | cons a t ih =>
    rw [List.foldl_cons]
    obtain ⟨e1, e2, e3, e4, e5, e6, e7⟩ := ih (del_fdb_zero_key s a)
    exact ⟨e1, e2, e3, e4, e5, e6, e7⟩

/-- Deleting, one by one, distinct LinkNetworks all belonging to one link
preserves the network back-references of every other link and keeps the
refcnt law; this is the inductive heart of the LINK DEL cascade. -/
theorem ginv_fold_del_list (ifx0 : Nat) (link0 : LinkRec) :
    ∀ (L : List Nat) (s : CacheState),
    s.dbLink ifx0 = some link0 →
    L.Nodup →
    (∀ lnId ∈ L, lnId ∈ link0.networkList) →
    (∀ lnId ∈ L, ∀ ln, s.lnHeap lnId = some ln →
        s.dbNetworkLive ln.networkId = true →
        ∃ nw, s.networkHeap ln.networkId = some nw ∧ lnId ∈ nw.links) →
    LinkListOk s → NetLinksOk s → BackRefExcept s ifx0 → CrossDisj s →
    RefcntLaw s →
    NetLinksOk (L.foldl cache_del_link_network s)
    ∧ BackRefExcept (L.foldl cache_del_link_network s) ifx0
    ∧ RefcntLaw (L.foldl cache_del_link_network s) := by
  intro L
  induction L with
  | nil =>
    intro s _ _ _ _ _ hN hBE _ hRef
    exact ⟨hN, hBE, hRef⟩
  | cons a t ih =>
    intro s hdb hnd hsub hmem hL hN hBE hC hRef
    rw [List.foldl_cons]
    have hndt : t.Nodup := hnd.of_cons
    have hanot : a ∉ t := (List.nodup_cons.mp hnd).1
    cases hln : s.lnHeap a with
    | none =>
      have hid : cache_del_link_network s a = s := by
        unfold cache_del_link_network
        rw [hln]
      rw [hid]
      exact ih s hdb hndt (fun x hx => hsub x (List.mem_cons_of_mem a hx))
        (fun x hx => hmem x (List.mem_cons_of_mem a hx)) hL hN hBE hC hRef
    | some ln =>
      have hheap' := del_ln_networkHeap s a ln hln
      have hdb' : (cache_del_link_network s a).dbLink = s.dbLink := del_ln_dbLink s a
      have hlnh' : (cache_del_link_network s a).lnHeap = s.lnHeap := del_ln_lnHeap s a
      have hlv' : (cache_del_link_network s a).dbNetworkLive = s.dbNetworkLive := del_ln_live s a
      have hnl' : (cache_del_link_network s a).nextLnId = s.nextLnId := del_ln_nextLn s a
      have hL' : LinkListOk (cache_del_link_network s a) := by
        unfold LinkListOk
        rw [hdb', hnl']
        exact hL
      have hC' : CrossDisj (cache_del_link_network s a) := by
        unfold CrossDisj
        rw [hdb']
        exact hC
      have hN' : NetLinksOk (cache_del_link_network s a) := by
        unfold NetLinksOk
        rw [hheap', hlnh']
        intro id nw2 h2 lnId2 hmem2
        rcases amod_eq_some h2 with ⟨hidq, nw, hnw, hv⟩ | ⟨hidq, h2⟩
        · subst hidq
          subst hv
          dsimp only at hmem2
          exact hN _ _ hnw lnId2 (List.mem_of_mem_erase hmem2)
        · exact hN _ _ h2 lnId2 hmem2
      cases hlv : s.dbNetworkLive ln.networkId with
      | false =>
        have hBE' : BackRefExcept (cache_del_link_network s a) ifx0 := by
          unfold BackRefExcept
          rw [hdb', hlnh', hlv', hheap']
          intro ifx l2 h2 hne lnId2 hmem2 ln2 hln2 hlive2
          have hneq : ln2.networkId ≠ ln.networkId := by
            intro he
            rw [he, hlv] at hlive2
            cases hlive2
          obtain ⟨nw0, hnw0, hm0⟩ := hBE ifx l2 h2 hne lnId2 hmem2 ln2 hln2 hlive2
          exact ⟨nw0, by rw [amod_other _ _ _ _ hneq]; exact hnw0, hm0⟩
        have hRef' : RefcntLaw (cache_del_link_network s a) := by
          unfold RefcntLaw
          rw [hlv', hheap']
          intro id hlive
          have hneq : id ≠ ln.networkId := by
            intro he
            rw [he, hlv] at hlive
            cases hlive
          rw [amod_other _ _ _ _ hneq]
          exact hRef id hlive
        have hmem' : ∀ lnId ∈ t, ∀ ln2,
            (cache_del_link_network s a).lnHeap lnId = some ln2 →
            (cache_del_link_network s a).dbNetworkLive ln2.networkId = true →
            ∃ nw, (cache_del_link_network s a).networkHeap ln2.networkId = some nw
              ∧ lnId ∈ nw.links := by
          rw [hlnh', hlv', hheap']
          intro lnId hm ln2 hln2 hlive2
          have hneq : ln2.networkId ≠ ln.networkId := by
            intro he
            rw [he, hlv] at hlive2
            cases hlive2
          obtain ⟨nw0, hnw0, hm0⟩ := hmem lnId (List.mem_cons_of_mem a hm) ln2 hln2 hlive2
          exact ⟨nw0, by rw [amod_other _ _ _ _ hneq]; exact hnw0, hm0⟩
        exact ih (cache_del_link_network s a) (by rw [hdb']; exact hdb) hndt
          (fun x hx => hsub x (List.mem_cons_of_mem a hx)) hmem' hL' hN' hBE' hC' hRef'
      | true =>
        obtain ⟨nw, hnw, hma⟩ := hmem a (List.mem_cons_self a t) ln hln hlv
        have hBE' : BackRefExcept (cache_del_link_network s a) ifx0 := by
          unfold BackRefExcept
          rw [hdb', hlnh', hlv', hheap']
          intro ifx l2 h2 hne lnId2 hmem2 ln2 hln2 hlive2
          obtain ⟨nw0, hnw0, hm0⟩ := hBE ifx l2 h2 hne lnId2 hmem2 ln2 hln2 hlive2
          by_cases hidq : ln2.networkId = ln.networkId
          · have hne2 : lnId2 ≠ a := by
              intro he
              have hma0 : a ∈ link0.networkList := hsub a (List.mem_cons_self a t)
              have := hC ifx l2 ifx0 link0 h2 hdb hne lnId2 hmem2
              rw [he] at this
              exact this hma0
            rw [hidq] at hnw0 ⊢
            rw [amod_same, hnw0]
            refine ⟨_, rfl, ?_⟩
            dsimp only
            exact (List.mem_erase_of_ne hne2).mpr hm0
          · exact ⟨nw0, by rw [amod_other _ _ _ _ hidq]; exact hnw0, hm0⟩
        have hRef' : RefcntLaw (cache_del_link_network s a) := by
          unfold RefcntLaw
          rw [hlv', hheap']
          intro id hlive
          by_cases hidq : id = ln.networkId
          · subst hidq
            obtain ⟨nw1, hnw1, heq⟩ := hRef _ hlive
            have : nw1 = nw := by
              rw [hnw1] at hnw
              injection hnw
            subst this
            rw [amod_same, hnw1]
            refine ⟨_, rfl, ?_⟩
            dsimp only
            have hlen : (nw1.links.erase a).length = nw1.links.length - 1 :=
              List.length_erase_of_mem hma
            have hpos : 0 < nw1.links.length := List.length_pos_of_mem hma
            rw [hlen, heq]
            omega
          · rw [amod_other _ _ _ _ hidq]
            exact hRef id hlive
        have hmem' : ∀ lnId ∈ t, ∀ ln2,
            (cache_del_link_network s a).lnHeap lnId = some ln2 →
            (cache_del_link_network s a).dbNetworkLive ln2.networkId = true →
            ∃ nw2, (cache_del_link_network s a).networkHeap ln2.networkId = some nw2
              ∧ lnId ∈ nw2.links := by
          rw [hlnh', hlv', hheap']
          intro lnId hm ln2 hln2 hlive2
          obtain ⟨nw0, hnw0, hm0⟩ := hmem lnId (List.mem_cons_of_mem a hm) ln2 hln2 hlive2
          by_cases hidq : ln2.networkId = ln.networkId
          · have hne2 : lnId ≠ a := by
              intro he
              rw [he] at hm
              exact hanot hm
            rw [hidq] at hnw0 ⊢
            rw [amod_same, hnw0]
            refine ⟨_, rfl, ?_⟩
            dsimp only
            exact (List.mem_erase_of_ne hne2).mpr hm0
          · exact ⟨nw0, by rw [amod_other _ _ _ _ hidq]; exact hnw0, hm0⟩
        exact ih (cache_del_link_network s a) (by rw [hdb']; exact hdb) hndt
          (fun x hx => hsub x (List.mem_cons_of_mem a hx)) hmem' hL' hN' hBE' hC' hRef'

/-- cache_del_link preserves the cache invariants. -/
theorem ginv_del_link (cmd : LinkCmd) (s : CacheState) (h : GInv s) :
    GInv (cache_del_link cmd s) := by
  obtain ⟨hF, hBnd, hA, hN, hL, hR, hC, hRef⟩ := h
  unfold cache_del_link
  cases hdb : s.dbLink cmd.ifindex with
  | none => exact ⟨hF, hBnd, hA, hN, hL, hR, hC, hRef⟩
  | some link =>
    dsimp only
    set s1 := link.networkList.foldl cache_del_link_network s with hs1
    set s2 := link.fdbList.foldl del_fdb_zero_key s1 with hs2
    have hBE0 : BackRefExcept s cmd.ifindex := fun ifx l h2 _ => hR ifx l h2
    obtain ⟨hN1, hBE1, hRef1⟩ := ginv_fold_del_list cmd.ifindex link
      link.networkList s hdb (hL _ _ hdb).1 (fun _ hx => hx)
      (fun x hx => hR cmd.ifindex link hdb x hx) hL hN hBE0 hC hRef
    obtain ⟨e1, e2, e3, e4, e5, e6, e7⟩ := foldl_fdb_only link.fdbList s1
    have g1 : s1.dbLink = s.dbLink := foldl_del_dbLink _ _
    have g3 : s1.lnHeap = s.lnHeap := foldl_del_lnHeap _ _
    have g4 : s1.lookupAddr = s.lookupAddr := foldl_del_lookupAddr _ _
    have g5 : s1.dbNetworkLive = s.dbNetworkLive := foldl_del_live _ _
    have g6 : s1.nextLnId = s.nextLnId := foldl_del_nextLn _ _
    have g7 : s1.nextNetworkId = s.nextNetworkId := foldl_del_nextNw _ _
    refine ⟨?_, ?_, ?_, ?_, ?_, ?_, ?_, ?_⟩
    · intro k hk
      dsimp only at hk ⊢
      rw [e6, g6] at hk
      rw [e3, g3]
      exact hF k hk
    · intro k ln2 h2
      dsimp only at h2 ⊢
      rw [e3, g3] at h2
      rw [e7, g7]
      exact hBnd k ln2 h2
    · intro a id h2
      dsimp only at h2 ⊢
      rw [e4, g4] at h2
      rw [e7, g7]
      exact hA a id h2
    · intro id nw2 h2 lnId2 hm2
      dsimp only at h2 ⊢
      rw [e2] at h2
      obtain ⟨ln2, hln2, hid2⟩ := hN1 id nw2 h2 lnId2 hm2
      refine ⟨ln2, ?_, hid2⟩
      rw [e3]
      exact hln2
    · intro ifx l2 h2
      dsimp only at h2 ⊢
      rcases fupd_eq_some h2 with ⟨hk, hv⟩ | ⟨hk, hv⟩
      · cases hv
      · rw [e1, g1] at hv
        obtain ⟨hnd, hbd⟩ := hL _ _ hv
        refine ⟨hnd, ?_⟩
        rw [e6, g6]
        exact hbd
    · intro ifx l2 h2 lnId2 hm2 ln2 hln2 hlv2
      dsimp only at h2 hln2 hlv2 ⊢
      rcases fupd_eq_some h2 with ⟨hk, hv⟩ | ⟨hk, hv⟩
      · cases hv
      · rw [e1] at hv
        rw [e3] at hln2
        rw [e5] at hlv2
        obtain ⟨nw, hnw, hm⟩ := hBE1 ifx l2 hv hk lnId2 hm2 ln2 hln2 hlv2
        refine ⟨nw, ?_, hm⟩
        rw [e2]
        exact hnw
    · intro ifx1 l1 ifx2 l2 h1 h2 hne lnId2 hm1
      dsimp only at h1 h2
      rcases fupd_eq_some h1 with ⟨hk1, hv1⟩ | ⟨hk1, hv1⟩
      · cases hv1
      · rcases fupd_eq_some h2 with ⟨hk2, hv2⟩ | ⟨hk2, hv2⟩
        · cases hv2
        · rw [e1, g1] at hv1 hv2
          exact hC ifx1 l1 ifx2 l2 hv1 hv2 hne lnId2 hm1
    · intro id hlv2
      dsimp only at hlv2 ⊢
      rw [e5] at hlv2
      obtain ⟨nw, hnw, heq⟩ := hRef1 id hlv2
      refine ⟨nw, ?_, heq⟩
      rw [e2]
      exact hnw

/-- Inserting a link whose network_list is empty preserves the cache
invariants (covers both a fresh insert and the replacement that happens
when cache_get_link missed an existing entry on a clock failure). -/
theorem ginv_link_insert (s : CacheState) (rec0 : LinkRec) (ifx : Nat)
    (hrec : rec0.networkList = []) (h : GInv s) :
    GInv { s with dbLink := fupd s.dbLink ifx (some rec0) } := by
  obtain ⟨hF, hBnd, hA, hN, hL, hR, hC, hRef⟩ := h
  refine ⟨hF, hBnd, hA, hN, ?_, ?_, ?_, hRef⟩
  · intro x l2 h2
    rcases fupd_eq_some h2 with ⟨hk, hv⟩ | ⟨hk, hv⟩
    · injection hv with hve
      subst hve
      rw [hrec]
      exact ⟨List.nodup_nil, fun x hx => absurd hx (List.not_mem_nil x)⟩
    · exact hL _ _ hv
  · intro x l2 h2 lnId2 hm2 ln2 hln2 hlv2
    rcases fupd_eq_some h2 with ⟨hk, hv⟩ | ⟨hk, hv⟩
    · injection hv with hve
      subst hve
      rw [hrec] at hm2
      cases hm2
    · exact hR _ _ hv lnId2 hm2 ln2 hln2 hlv2
  · intro x1 l1 x2 l2 h1 h2 hne lnId2 hm1
    rcases fupd_eq_some h1 with ⟨hk1, hv1⟩ | ⟨hk1, hv1⟩
    · injection hv1 with hve
      subst hve
      rw [hrec] at hm1
      cases hm1
    · rcases fupd_eq_some h2 with ⟨hk2, hv2⟩ | ⟨hk2, hv2⟩
      · injection hv2 with hve
        subst hve
        rw [hrec]
        exact List.not_mem_nil _
      · exact hC _ _ _ _ hv1 hv2 hne lnId2 hm1

/-- Rewriting the attributes of a cached link without touching its
network_list preserves the cache invariants. -/
theorem ginv_link_amod (s : CacheState) (ifx : Nat) (g : LinkRec → LinkRec)
    (hg : ∀ l, (g l).networkList = l.networkList) (h : GInv s) :
    GInv { s with dbLink := amod s.dbLink ifx g } := by
  obtain ⟨hF, hBnd, hA, hN, hL, hR, hC, hRef⟩ := h
  refine ⟨hF, hBnd, hA, hN, ?_, ?_, ?_, hRef⟩
  · intro x l2 h2
    dsimp only at h2
    rcases amod_eq_some h2 with ⟨hk, w, hw, hv⟩ | ⟨hk, hb2⟩
    · subst hv
      subst hk
      rw [hg]
      exact hL _ _ hw
    · exact hL _ _ hb2
  · intro x l2 h2 lnId2 hm2 ln2 hln2 hlv2
    dsimp only at h2 hln2 hlv2
    rcases amod_eq_some h2 with ⟨hk, w, hw, hv⟩ | ⟨hk, hb2⟩
    · subst hv
      subst hk
      rw [hg] at hm2
      exact hR _ _ hw lnId2 hm2 ln2 hln2 hlv2
    · exact hR _ _ hb2 lnId2 hm2 ln2 hln2 hlv2
  · intro x1 l1 x2 l2 h1 h2 hne lnId2 hm1
    dsimp only at h1 h2
    rcases amod_eq_some h1 with ⟨hk1, w1, hw1, hv1⟩ | ⟨hk1, hb1⟩
    · subst hv1
      subst hk1
      rw [hg] at hm1
      rcases amod_eq_some h2 with ⟨hk2, w2, hw2, hv2⟩ | ⟨hk2, hb2⟩
      · subst hv2
        subst hk2
        exact absurd rfl hne
      · exact hC _ _ _ _ hw1 hb2 hne lnId2 hm1
    · rcases amod_eq_some h2 with ⟨hk2, w2, hw2, hv2⟩ | ⟨hk2, hb2⟩
      · subst hv2
        subst hk2
        rw [hg]
        exact hC _ _ _ _ hb1 hw2 hne lnId2 hm1
      · exact hC _ _ _ _ hb1 hb2 hne lnId2 hm1

/-- handle_link_add preserves the cache invariants. -/
theorem ginv_link_add (env : Env) (o : Oracle) (cmd : LinkCmd)
    (s : CacheState) (h : GInv s) : GInv (handle_link_add env o cmd s) := by
  unfold handle_link_add cache_add_link
  dsimp only
  split
  · exact ginv_link_amod s cmd.ifindex (cache_update_link cmd) (fun _ => rfl) h
  · split
    · exact ginv_link_amod _ cmd.ifindex _ (fun _ => rfl)
        (ginv_link_insert s _ cmd.ifindex rfl h)
    · exact h

/-- cache_add_network preserves the cache invariants on every path,
including both rollback paths. -/
theorem ginv_add_network (o : Oracle) (cmd : AddrCmd) (s : CacheState)
    (h : GInv s) : GInv (cache_add_network o cmd s).1 := by
  obtain ⟨hF, hBnd, hA, hN, hL, hR, hC, hRef⟩ := h
  unfold cache_add_network
  cases hl : cache_get_link s o.clockLookup cmd.ifindex with
  | none => exact ⟨hF, hBnd, hA, hN, hL, hR, hC, hRef⟩
  | some link =>
    dsimp only
    have h1 : GInv { s with
        nextNetworkId := s.nextNetworkId + 1,
        dbNetworkLive := bupd s.dbNetworkLive s.nextNetworkId true,
        networkHeap := fupd s.networkHeap s.nextNetworkId (some
          { network := cmd.network, prefixlen := cmd.prefixlen,
            truePrefixlen := cmd.truePrefixlen, refcnt := 0, links := [] }),
        lookupAddr := fupd s.lookupAddr cmd.network (some s.nextNetworkId) } := by
      unfold GInv LnFresh LnNwBound AddrIdxBound NetLinksOk LinkListOk
        BackRef CrossDisj RefcntLaw
      dsimp only
      refine ⟨hF, ?_, ?_, ?_, hL, ?_, hC, ?_⟩
      · intro k ln2 h2
        exact Nat.lt_succ_of_lt (hBnd k ln2 h2)
      · intro a id h2
        rcases fupd_eq_some h2 with ⟨hk, hv⟩ | ⟨hk, hv⟩
        · injection hv with hve
          omega
        · exact Nat.lt_succ_of_lt (hA a id hv)
      · intro id nw2 h2 lnId2 hm2
        rcases fupd_eq_some h2 with ⟨hk, hv⟩ | ⟨hk, h2⟩
        · injection hv with hve
          subst hve
          cases hm2
        · exact hN _ _ h2 lnId2 hm2
      · intro x l2 h2 lnId2 hm2 ln2 hln2 hlv2
        have hne : ln2.networkId ≠ s.nextNetworkId := by
          have := hBnd lnId2 ln2 hln2
          omega
        rw [bupd_other _ _ _ _ hne] at hlv2
        obtain ⟨nw0, hnw0, hm0⟩ := hR _ _ h2 lnId2 hm2 ln2 hln2 hlv2
        exact ⟨nw0, by rw [fupd_other _ _ _ _ hne]; exact hnw0, hm0⟩
      · intro id hlv2
        by_cases hk : id = s.nextNetworkId
        · subst hk
          rw [fupd_same]
          exact ⟨_, rfl, rfl⟩
        · rw [bupd_other _ _ _ _ hk] at hlv2
          rw [fupd_other _ _ _ _ hk]
          exact hRef id hlv2
    have h2 := ginv_add_link_network _
      { linkIfindex := link.ifindex, networkId := s.nextNetworkId,
        networkAddr := cmd.network, ip := cmd.ip }
      (by dsimp only; omega) h1
    split
    · split
      · exact h2
      · exact ginv_live_off _ s.nextNetworkId cmd.network h2
    · exact ginv_live_off _ s.nextNetworkId cmd.network h2

/-- The id returned by a successful cache_add_network is below the updated
network id counter. -/
theorem add_network_some_lt (o : Oracle) (cmd : AddrCmd) (s : CacheState)
    (nid : Nat) (h : (cache_add_network o cmd s).2 = some nid) :
    nid < (cache_add_network o cmd s).1.nextNetworkId := by
  unfold cache_add_network at h ⊢
  cases hl : cache_get_link s o.clockLookup cmd.ifindex with
  | none =>
    rw [hl] at h
    simp at h
  | some link =>
    rw [hl] at h
    dsimp only at h ⊢
    by_cases hb : o.bpfOk
    · by_cases hc : o.clockCreate
      · rw [if_pos hb, if_pos hc] at h ⊢
        dsimp only at h
        injection h with he
        subst he
        dsimp only
        unfold cache_add_link_network
        dsimp only
        omega
      · rw [if_pos hb, if_neg hc] at h
        cases h
    · rw [if_neg hb] at h
      cases h

/-- handle_addr_add preserves the cache invariants. -/
theorem ginv_addr_add (env : Env) (o : Oracle) (cmd : AddrCmd)
    (s : CacheState) (h : GInv s) : GInv (handle_addr_add env o cmd s) := by
  unfold handle_addr_add addr_add_bind cache_get_network
  dsimp only
  split
  · exact h
  · split
    · exact h
    · split
      · exact h
      · split
        · exact h
        · split
          · -- an existing network: the binding may be created
            rename_i nid hnid
            split
            · exact h
            · split
              · exact h
              · refine ginv_add_link_network s _ ?_ h
                dsimp only
                exact h.2.2.1 cmd.network nid hnid
          · -- a fresh network through cache_add_network
            have hr : GInv (cache_add_network o cmd s).1 :=
              ginv_add_network o cmd s h
            split
            · exact hr
            · rename_i nid hnid
              split
              · exact hr
              · split
                · exact hr
                · refine ginv_add_link_network _ _ ?_ hr
                  dsimp only
                  exact add_network_some_lt o cmd s nid hnid

/-- handle_addr_del preserves the cache invariants. -/
theorem ginv_addr_del (o : Oracle) (cmd : AddrCmd) (s : CacheState)
    (h : GInv s) : GInv (handle_addr_del o cmd s) := by
  unfold handle_addr_del
  split
  · exact h
  · exact ginv_del_network o cmd s h

/-- handle_link_del preserves the cache invariants. -/
theorem ginv_link_del (o : Oracle) (cmd : LinkCmd) (s : CacheState)
    (h : GInv s) : GInv (handle_link_del o cmd s) := by
  unfold handle_link_del
  split
  · exact h
  · exact ginv_del_link cmd s h

/-- Every topology event preserves the cache invariants. -/
theorem ginv_apply_event (env : Env) (s : CacheState) (e : Event)
    (h : GInv s) : GInv (applyEvent env s e) := by
  cases e with
  | linkAdd o cmd => exact ginv_link_add env o cmd s h
  | linkDel o cmd => exact ginv_link_del o cmd s h
  | addrAdd o cmd => exact ginv_addr_add env o cmd s h
  | addrDel o cmd => exact ginv_addr_del o cmd s h
  | fdbAdd o cmd => exact ginv_fdb_add env o cmd s h
  | fdbDel o cmd => exact ginv_fdb_del o cmd s h
  | neighAdd o cmd => exact ginv_neigh_add env o cmd s h
  | neighDel o cmd => exact ginv_neigh_del o cmd s h

/-- Every stream of topology events preserves the cache invariants. -/
theorem ginv_apply_events (env : Env) (evs : List Event) (s : CacheState)
    (h : GInv s) : GInv (applyEvents env evs s) := by
  unfold applyEvents
  induction evs generalizing s with
  | nil => exact h
  | cons e t ih =>
    rw [List.foldl_cons]
    exact ih (applyEvent env s e) (ginv_apply_event env s e h)

/-- C5.  The refcnt law: after any sequence of topology events applied to
the empty cache, every live Network has refcnt equal to the length of its
links list. -/
theorem C5_refcnt_law (env : Env) (evs : List Event) :
    RefcntLaw (applyEvents env evs initState) :=
  (ginv_apply_events env evs initState ginv_init).2.2.2.2.2.2.2

/-- C7 counterexample.  The claim says the enqueue happens whether or not
re-arming the refresh timer of an already-cached neighbor succeeds.  On the
concrete cache sNeigh the reply resolves its LinkNetwork, has no fdb hit and
matches the cached neighbor, yet with the sysctl read failing
handle_neighbor_reply returns without enqueueing anything. -/
theorem C7_reply_enqueue_counterexample :
    cache_get_link_network_by_reply sNeigh replyMac99 = some 0
    ∧ sNeigh.dbFdb { mac := 99, ifindex := 7, vlanId := 10 } = none
    ∧ (sNeigh.dbNeigh { ifindex := 7, ip := 0xFFFF0A000005 }).isSome
    ∧ (handle_neighbor_reply envReady { oracleOk with sysctl := none }
        replyMac99 sNeigh).2.1 = [] := by
  refine ⟨by decide, by decide, by decide, by decide⟩

/-- C7 amended.  A reply that passes the family filters, resolves a
LinkNetwork and has no fdb hit gets its NEIGH_ADD enqueued for
(link.ifindex, mac, ip) whether or not a Neighbor is already cached,
provided that, when one is cached, the sysctl read that re-arms its refresh
timer succeeds; when that read fails the handler aborts without
enqueueing. -/
theorem C7_reply_enqueue (env : Env) (o : Oracle) (reply : Reply)
    (s : CacheState) (lnId : Nat) (ln : LNRec) (link : LinkRec)
    (hf6 : ¬(env.onlyIpv6 ∧ reply.inFamily ≠ AF_INET6))
    (hf4 : ¬(env.onlyIpv4 ∧ reply.inFamily ≠ AF_INET))
    (h1 : cache_get_link_network_by_reply s reply = some lnId)
    (h2 : s.lnHeap lnId = some ln)
    (h3 : s.dbLink ln.linkIfindex = some link)
    (h4 : s.dbFdb { mac := reply.mac, ifindex := link.ifindex, vlanId := reply.vlanId } = none)
    (h5 : s.dbNeigh { ifindex := link.ifindex, ip := reply.ip } = none ∨ (o.sysctl).isSome) :
    (handle_neighbor_reply env o reply s).2.1 =
      [{ ifindex := link.ifindex, mac := reply.mac, ip := reply.ip }] := by
  unfold handle_neighbor_reply
  rcases hn : s.dbNeigh { ifindex := link.ifindex, ip := reply.ip } with _ | n
  · simp [hf6, hf4, h1, h2, h3, cache_get_fdb_by_reply, cache_get_fdb, h4,
          cache_get_neigh_by_reply, cache_get_neigh, hn]
  · rcases h5 with h5 | h5
    · rw [hn] at h5
      cases h5
    · obtain ⟨B, hB⟩ := Option.isSome_iff_exists.mp h5
      cases ht : n.timer with
      | none =>
        simp [hf6, hf4, h1, h2, h3, cache_get_fdb_by_reply, cache_get_fdb, h4,
              cache_get_neigh_by_reply, cache_get_neigh, hn, ht,
              new_neigh_timer, hB]
      | some t =>
        simp [hf6, hf4, h1, h2, h3, cache_get_fdb_by_reply, cache_get_fdb, h4,
              cache_get_neigh_by_reply, cache_get_neigh, hn, ht,
              new_neigh_timer, hB, timer_remove_event]

/-- C7 witness: the amended theorem applied on the cache sLinkNet (no cached
neighbor) for the reply with MAC 77. -/
theorem C7_reply_enqueue_witness :
    (handle_neighbor_reply envReady oracleOk replyMac77 sLinkNet).2.1 =
      [{ ifindex := 7, mac := 77, ip := 0xFFFF0A000005 }] :=
  C7_reply_enqueue envReady oracleOk replyMac77 sLinkNet 0 lnRecA linkRecA
    (by decide) (by decide) (by decide) (by decide) (by decide) (by decide)
    (Or.inl (by decide))

/-- C10.  The neighbor lookup of the reply correlator keys only on
(ifindex, ip): replies differing only in their MAC resolve to the same
cached Neighbor, and on a correlator hit (family pass, LinkNetwork
resolved, no fdb hit, sysctl read fine) the matched neighbor has its timer
slot replaced by the freshly armed one while a previous timer slot is
cancelled. -/
theorem C10_reply_neigh_mac_ignored :
    (∀ (s : CacheState) (c : Bool) (reply : Reply) (ifx m m2 : Nat),
        cache_get_neigh_by_reply s c { reply with mac := m } ifx =
        cache_get_neigh_by_reply s c { reply with mac := m2 } ifx)
    ∧ (∀ (env : Env) (o : Oracle) (reply : Reply) (s : CacheState)
        (lnId : Nat) (ln : LNRec) (link : LinkRec) (n : NeighRec),
        ¬(env.onlyIpv6 ∧ reply.inFamily ≠ AF_INET6) →
        ¬(env.onlyIpv4 ∧ reply.inFamily ≠ AF_INET) →
        cache_get_link_network_by_reply s reply = some lnId →
        s.lnHeap lnId = some ln →
        s.dbLink ln.linkIfindex = some link →
        s.dbFdb { mac := reply.mac, ifindex := link.ifindex, vlanId := reply.vlanId } = none →
        s.dbNeigh { ifindex := link.ifindex, ip := reply.ip } = some n →
        (o.sysctl).isSome →
        ((handle_neighbor_reply env o reply s).1.dbNeigh
            { ifindex := link.ifindex, ip := reply.ip } =
          some { n with timer := some s.nextTimerId }
        ∧ ∀ t, n.timer = some t → t ≠ s.nextTimerId →
            (handle_neighbor_reply env o reply s).1.armed t = false)) := by
  constructor
  · intro s c reply ifx m m2
    rfl
  · intro env o reply s lnId ln link n hf6 hf4 h1 h2 h3 h4 hn hs
    obtain ⟨B, hB⟩ := Option.isSome_iff_exists.mp hs
    unfold handle_neighbor_reply
    cases ht : n.timer with
    | none =>
      constructor
      · simp [hf6, hf4, h1, h2, h3, cache_get_fdb_by_reply, cache_get_fdb, h4,
              cache_get_neigh_by_reply, cache_get_neigh, hn, ht,
              new_neigh_timer, hB, armNeighTimer, amod]
      · intro t htt
        cases htt
    | some t0 =>
      constructor
      · simp [hf6, hf4, h1, h2, h3, cache_get_fdb_by_reply, cache_get_fdb, h4,
              cache_get_neigh_by_reply, cache_get_neigh, hn, ht,
              new_neigh_timer, hB, armNeighTimer, amod, timer_remove_event]
      · intro t htt hne
        have h0 : t0 = t := by injection htt
        subst h0
        simp [hf6, hf4, h1, h2, h3, cache_get_fdb_by_reply, cache_get_fdb, h4,
              cache_get_neigh_by_reply, cache_get_neigh, hn, ht,
              new_neigh_timer, hB, armNeighTimer, timer_remove_event, bupd,
              hne]

/-- C10 witness: on the cache sNeigh the reply lookup gives the same result
for MAC 99 and the cached MAC 77, and the correlator run with the MAC 99
reply replaces the timer slot of the matched neighbor (arming slot 1) and
cancels the previously armed slot 0. -/
theorem C10_reply_neigh_mac_ignored_witness :
    cache_get_neigh_by_reply sNeigh true { replyMac77 with mac := 99 } 7 =
      cache_get_neigh_by_reply sNeigh true { replyMac77 with mac := 77 } 7
    ∧ (handle_neighbor_reply envReady oracleOk replyMac99 sNeigh).1.dbNeigh
        { ifindex := 7, ip := 0xFFFF0A000005 } =
        some { neighRecA with timer := some sNeigh.nextTimerId }
    ∧ (handle_neighbor_reply envReady oracleOk replyMac99 sNeigh).1.armed 0 = false :=
  ⟨C10_reply_neigh_mac_ignored.1 sNeigh true replyMac77 7 99 77,
   (C10_reply_neigh_mac_ignored.2 envReady oracleOk replyMac99 sNeigh 0 lnRecA
      linkRecA neighRecA (by decide) (by decide) (by decide) (by decide)
      (by decide) (by decide) (by decide) (by decide)).1,
   (C10_reply_neigh_mac_ignored.2 envReady oracleOk replyMac99 sNeigh 0 lnRecA
      linkRecA neighRecA (by decide) (by decide) (by decide) (by decide)
      (by decide) (by decide) (by decide) (by decide)).2 0 (by decide) (by decide)⟩

/-- Masking to a prefix is idempotent. -/
theorem maskCidr_idem (x p : Nat) : maskCidr (maskCidr x p) p = maskCidr x p := by
  unfold maskCidr
  by_cases h : 128 ≤ p
  · simp [h]
  · simp only [h, if_false]
    have h1 : ((x >>> (128 - p)) <<< (128 - p)) >>> (128 - p) = x >>> (128 - p) := by
      rw [Nat.shiftLeft_eq, Nat.shiftRight_eq_div_pow]
      exact Nat.mul_div_cancel _ (Nat.two_pow_pos (128 - p))
    rw [h1]

/-- C6 counterexample.  The claim says the LinkNetwork created for an
accepted ADDR ADD stores the event address masked to its prefixlen on both
creation paths.  On the new-Network path the code stores the raw address:
after ADDR ADD of ::ffff:10.0.0.1/120 the created LinkNetwork carries
::ffff:10.0.0.1 itself, which differs from the masked address
::ffff:10.0.0.0. -/
theorem C6_linknetwork_ip_counterexample :
    ((sLinkNet.lnHeap 0).map fun ln => ln.ip) = some 0xFFFF0A000001
    ∧ maskCidr 0xFFFF0A000001 120 = 0xFFFF0A000000
    ∧ (0xFFFF0A000001 : Nat) ≠ 0xFFFF0A000000 := by
  refine ⟨by decide, by decide, by decide⟩

/-- C6 amended.  On the creation path where the ADDR ADD creates a new
Network (cache_add_network), the LinkNetwork stores the raw event address;
on the path binding an additional SVI to an existing Network
(handle_addr_add), it stores the cached network address masked to the event
prefixlen, which equals the event address masked to its prefixlen whenever
the cached network address is canonical for the event. -/
theorem C6_linknetwork_ip :
    (∀ (o : Oracle) (cmd : AddrCmd) (s : CacheState) (nid : Nat),
        (cache_add_network o cmd s).2 = some nid →
        (((cache_add_network o cmd s).1.lnHeap s.nextLnId).map fun ln => ln.ip)
          = some cmd.ip)
    ∧ (∀ (env : Env) (o : Oracle) (cmd : AddrCmd) (s : CacheState)
        (link : LinkRec) (nid : Nat) (nw : NetworkRec),
        env.hasLinks = true →
        ¬(¬env.disableIpv6llFilter ∧ isLinkLocal cmd.ip) →
        cache_get_link s o.clockLookup cmd.ifindex = some link →
        link.isSvi = true →
        s.lookupAddr cmd.network = some nid →
        s.networkHeap nid = some nw →
        s.lookupAddrIfindex (nw.network, cmd.ifindex) = none →
        ((((handle_addr_add env o cmd s).lnHeap s.nextLnId).map fun ln => ln.ip)
            = some (maskCidr nw.network cmd.prefixlen)
        ∧ (nw.network = maskCidr cmd.ip cmd.prefixlen →
            (((handle_addr_add env o cmd s).lnHeap s.nextLnId).map fun ln => ln.ip)
              = some (maskCidr cmd.ip cmd.prefixlen)))) := by
  constructor
  · intro o cmd s nid hsucc
    unfold cache_add_network at hsucc ⊢
    rcases hl : cache_get_link s o.clockLookup cmd.ifindex with _ | link
    · simp [hl] at hsucc
    · by_cases hb : o.bpfOk
      · by_cases hc : o.clockCreate
        · simp [hl, hb, hc, cache_add_link_network, fupd]
        · simp [hl, hb, hc] at hsucc
      · simp [hl, hb] at hsucc
  · intro env o cmd s link nid nw hLinks hLL hl hSvi hAddr hHeap hMiss
    have hmain :
        (((handle_addr_add env o cmd s).lnHeap s.nextLnId).map fun ln => ln.ip)
          = some (maskCidr nw.network cmd.prefixlen) := by
      unfold handle_addr_add
      have hLL2 : ¬(env.disableIpv6llFilter = false ∧ isLinkLocal cmd.ip = true) := by
        simpa using hLL
      simp [hLinks, hLL2, hl, hSvi, cache_get_network, hAddr, hHeap,
            addr_add_bind, cache_get_link_network, hMiss,
            cache_add_link_network, fupd]
    refine ⟨hmain, fun hEq => ?_⟩
    rw [hmain, hEq, maskCidr_idem]

/-- C6 witness: both parts of the amended theorem applied to concrete
caches: the new-Network path on sLink stores the raw ::ffff:10.0.0.1, the
existing-Network path binding link 8 on sTwoLinks stores the masked
::ffff:10.0.0.0. -/
theorem C6_linknetwork_ip_witness :
    (((cache_add_network oracleOk addrCmdA sLink).1.lnHeap sLink.nextLnId).map
        fun ln => ln.ip) = some addrCmdA.ip
    ∧ (((handle_addr_add envReady oracleOk addrCmdB sTwoLinks).lnHeap
        sTwoLinks.nextLnId).map fun ln => ln.ip)
        = some (maskCidr addrCmdB.ip addrCmdB.prefixlen) :=
  ⟨C6_linknetwork_ip.1 oracleOk addrCmdA sLink 1 (by decide),
   (C6_linknetwork_ip.2 envReady oracleOk addrCmdB sTwoLinks linkRecB 1 nwRecA
      (by decide) (by decide) (by decide) (by decide) (by decide) (by decide)
      (by decide)).2 (by decide)⟩

end Nsd
